import Mathlib

/-!
# Rollbar secrets backend: role store, config store, client cache and the
# issue / renew / revoke handlers

A shallow embedding of the Go package `plugin`
(`backend.go`, `client.go`, `path_config.go`, `path_roles.go`,
`path_project_access_token.go`, `project_access_token.go`).

Conventions of the embedding.

* A Go handler `func(...) (*logical.Response, error)` becomes a function
  returning an `Outcome (Option Response)`: `ok none` is `return nil, nil`,
  `ok (some r)` is `return r, nil`, `error msg` is `return nil, err` and
  `fault` is a run-time fault of the Go program (reading a field through a
  nil pointer, a failed type assertion).
* `time.Duration` is an `Int` number of nanoseconds; the product
  `time.Duration(x) * time.Second` wraps at 64 bits.
* `logical.Storage` is the in-memory key/value store. Its operations keep the
  `(value, error)` shape of the interface, so the handlers keep their error
  branches. A stored entry holds the JSON document as a typed value.
* The mutable fields reached through `b *RollbarBackend` are passed and
  returned explicitly; the read/write lock is not represented (every
  operation here runs to completion before the next one starts).
* The remote service, the JSON decoder of the reply and the UUID source are
  supplied by an `Env`; every HTTP request handed to the transport is
  appended to a log that the handlers return.
* What it means for a request body to be a JSON document is fixed by a reader
  for the JSON grammar (section "JSON documents"); the body itself is the
  string that the Go code concatenates.
-/

namespace Rollbar

/-! ## Outcomes and dynamically typed values -/

/-- Result of a Go function returning `(T, error)` that may also stop with a
run-time fault; `what` is the text of the fault. -/
inductive Outcome (α : Type) where
  | ok (val : α)
  | error (msg : String)
  | fault (what : String)
  deriving DecidableEq, Repr

/-- The fault raised when a field is read through a nil pointer. -/
def nilPointerDereference : String :=
  "invalid memory address or nil pointer dereference"

/-- The fault raised by the type assertion `x.(string)` on a non-string. -/
def interfaceConversion : String :=
  "interface conversion: interface {} is not string"

/-- Values of type `interface{}` that occur in response and secret maps. -/
inductive Value where
  | str (s : String)
  | int (i : Int)
  deriving DecidableEq, Repr

/-! ## Durations -/

/-- Reduction of an integer to the signed 64-bit range (Go `int64` wrap). -/
def wrapInt64 (x : Int) : Int :=
  (x + 9223372036854775808) % 18446744073709551616 - 9223372036854775808

/-- The constant `time.Second`, in nanoseconds. -/
def Second : Int := 1000000000

/-- The expression `time.Duration(x) * time.Second`. -/
def secondsToDuration (x : Int) : Int :=
  wrapInt64 (x * Second)

/-- The constant `defaultMaxTTL = time.Second * 7200`. -/
def defaultMaxTTL : Int := Second * 7200

/-- The constant `defaultTTL = time.Second * 3600`. -/
def defaultTTL : Int := Second * 3600

/-! ## Records -/

/-- The struct `RollbarConfig`. -/
structure RollbarConfig where
  AccountAccessToken : String := ""
  deriving DecidableEq, Repr

/-- The struct `RollbarRoleEntry`. Unset fields take the Go zero value. -/
structure RollbarRoleEntry where
  Name : String := ""
  ProjectID : Int := 0
  ProjectAccessTokenScopes : String := ""
  TTL : Int := 0
  MaxTTL : Int := 0
  deriving DecidableEq, Repr

/-! ## Storage -/

/-- A JSON document held by a storage entry. `undecodable` stands for bytes
that `DecodeJSON` refuses. -/
inductive StoredJSON where
  | role (r : RollbarRoleEntry)
  | config (c : RollbarConfig)
  | undecodable
  deriving DecidableEq, Repr

/-- The struct `logical.StorageEntry`. -/
structure StorageEntry where
  Key : String
  Value : StoredJSON
  deriving DecidableEq, Repr

/-- The in-memory `logical.Storage`: at most one entry is found per key. -/
abbrev Storage := List StorageEntry

/-- The method `Storage.Get`: `ok none` is the `(nil, nil)` answer for an
absent key. -/
def Storage.Get (s : Storage) (key : String) : Except String (Option StorageEntry) :=
  .ok (s.find? (fun e => e.Key == key))

/-- The method `Storage.Put`: the entry replaces any entry under its key. -/
def Storage.Put (s : Storage) (entry : StorageEntry) : Except String Storage :=
  .ok (entry :: s.filter (fun e => e.Key != entry.Key))

/-- The method `Storage.Delete`: removing an absent key is not an error. -/
def Storage.Delete (s : Storage) (key : String) : Except String Storage :=
  .ok (s.filter (fun e => e.Key != key))

/-- The method `StorageEntry.DecodeJSON` with a `RollbarRoleEntry` target. JSON
keys that the target does not declare are skipped, so a document written for
the other record decodes to the zero role. -/
def StorageEntry.DecodeJSONRole (e : StorageEntry) : Except String RollbarRoleEntry :=
  match e.Value with
  | .role r => .ok r
  | .config _ => .ok {}
  | .undecodable => .error "invalid character"

/-- The method `StorageEntry.DecodeJSON` with a `RollbarConfig` target. -/
def StorageEntry.DecodeJSONConfig (e : StorageEntry) : Except String RollbarConfig :=
  match e.Value with
  | .config c => .ok c
  | .role _ => .ok {}
  | .undecodable => .error "invalid character"

/-- The function `logical.StorageEntryJSON` applied to a role. -/
def StorageEntryJSONRole (key : String) (r : RollbarRoleEntry) : Except String (Option StorageEntry) :=
  .ok (some { Key := key, Value := .role r })

/-- The function `logical.StorageEntryJSON` applied to a config. -/
def StorageEntryJSONConfig (key : String) (c : RollbarConfig) : Except String StorageEntry :=
  .ok { Key := key, Value := .config c }

/-! ## Requests and responses of the framework -/

/-- The request operations used by the handlers. -/
inductive Operation where
  | CreateOperation
  | ReadOperation
  | UpdateOperation
  | DeleteOperation
  | ListOperation
  | RenewOperation
  | RevokeOperation
  deriving DecidableEq, Repr

/-- The parsed `framework.FieldData` of a request: `none` is a field that the
request did not supply. Values already have the type of the field schema
(`name` is lower-cased by the schema type before the handler runs). -/
structure FieldData where
  name : Option String := none
  project_id : Option Int := none
  project_access_token_scopes : Option String := none
  ttl : Option Int := none
  max_ttl : Option Int := none
  account_access_token : Option String := none
  deriving DecidableEq, Repr

/-- The struct `logical.Secret`: lease options and the internal data map. -/
structure Secret where
  TTL : Int := 0
  MaxTTL : Int := 0
  InternalData : List (String × Value) := []
  deriving DecidableEq, Repr

/-- The struct `logical.Response`. -/
structure Response where
  Secret : Option Secret := none
  Data : List (String × Value) := []
  deriving DecidableEq, Repr

/-- The function `logical.ErrorResponse`. -/
def ErrorResponse (text : String) : Response :=
  { Data := [("error", .str text)] }

/-! ## Role store (`path_roles.go`) -/

/-- The constant `pathRoleDef`. -/
def pathRoleDef : String := "roles/"

/-- The method `getRole`. -/
def getRole (s : Storage) (name : String) : Except String (Option RollbarRoleEntry) :=
  if name = "" then
    .error "missing role name"
  else
    match s.Get (pathRoleDef ++ name) with
    | .error err => .error err
    | .ok none => .ok none
    | .ok (some entry) =>
      match entry.DecodeJSONRole with
      | .error err => .error err
      | .ok role => .ok (some role)

/-- The function `setRole`. -/
def setRole (s : Storage) (name : String) (roleEntry : RollbarRoleEntry) : Except String Storage :=
  match StorageEntryJSONRole (pathRoleDef ++ name) roleEntry with
  | .error err => .error err
  | .ok none => .error "failed to create storage entry for role"
  | .ok (some entry) => s.Put entry

/-- The method `PathRolesExistenceCheck`: it looks up the key `pathRoleDef`
itself. -/
def PathRolesExistenceCheck (s : Storage) : Except String Bool :=
  match s.Get pathRoleDef with
  | .error err => .error ("existence check failed: " ++ err)
  | .ok out => .ok out.isSome

/-- The role entry that `pathRolesWrite` starts from: the stored one, or a
fresh entry carrying the two default durations. -/
def initialRoleEntry (stored : Option RollbarRoleEntry) : RollbarRoleEntry :=
  match stored with
  | some roleEntry => roleEntry
  | none => { TTL := defaultTTL, MaxTTL := defaultMaxTTL }

/-- The field assignments of `pathRolesWrite` (from `roleEntry.Name = name` to
the `max_ttl` block): a supplied field is stored, and on a create operation an
omitted optional field is set to the schema zero returned by `d.Get`. -/
def mergeRoleFields (createOperation : Bool) (d : FieldData) (name : String) (projectID : Int)
    (roleEntry : RollbarRoleEntry) : RollbarRoleEntry :=
  let roleEntry := { roleEntry with Name := name, ProjectID := projectID }
  let roleEntry :=
    match d.project_access_token_scopes with
    | some scopes => { roleEntry with ProjectAccessTokenScopes := scopes }
    | none =>
      if createOperation then
        { roleEntry with ProjectAccessTokenScopes := d.project_access_token_scopes.getD "" }
      else roleEntry
  let roleEntry :=
    match d.ttl with
    | some ttlRaw => { roleEntry with TTL := secondsToDuration ttlRaw }
    | none =>
      if createOperation then { roleEntry with TTL := secondsToDuration (d.ttl.getD 0) }
      else roleEntry
  match d.max_ttl with
  | some maxTTLRaw => { roleEntry with MaxTTL := secondsToDuration maxTTLRaw }
  | none =>
    if createOperation then { roleEntry with MaxTTL := secondsToDuration (d.max_ttl.getD 0) }
    else roleEntry

/-- The handler `pathRolesWrite`, returning its result and the storage it
leaves behind. -/
def pathRolesWrite (op : Operation) (s : Storage) (d : FieldData) :
    Outcome (Option Response) × Storage :=
  let name := d.name.getD ""
  if name = "" then
    (.ok (some (ErrorResponse "missing role name")), s)
  else
    let projectID := d.project_id.getD 0
    if projectID = 0 then
      (.ok (some (ErrorResponse "missing project ID")), s)
    else
      match getRole s name with
      | .error err => (.error err, s)
      | .ok stored =>
        let createOperation := decide (op = Operation.CreateOperation)
        let roleEntry := mergeRoleFields createOperation d name projectID (initialRoleEntry stored)
        if roleEntry.MaxTTL ≠ 0 ∧ roleEntry.TTL > roleEntry.MaxTTL then
          (.ok (some (ErrorResponse "ttl cannot be greater than max_ttl")), s)
        else
          match setRole s name roleEntry with
          | .error err => (.error err, s)
          | .ok s' => (.ok none, s')

/-- The handler `pathRolesDelete`. -/
def pathRolesDelete (s : Storage) (d : FieldData) : Outcome (Option Response) × Storage :=
  match s.Delete (pathRoleDef ++ d.name.getD "") with
  | .error err => (.error ("error deleting rollbar role: " ++ err), s)
  | .ok s' => (.ok none, s')

/-! ## Config store (`path_config.go`) -/

/-- The constant `configStoragePath`. -/
def configStoragePath : String := "config"

/-- The function `getConfig`. -/
def getConfig (s : Storage) : Except String (Option RollbarConfig) :=
  match s.Get configStoragePath with
  | .error err => .error err
  | .ok none => .ok none
  | .ok (some entry) =>
    match entry.DecodeJSONConfig with
    | .error err => .error ("error reading root configuration: " ++ err)
    | .ok config => .ok (some config)

/-- The handler `pathConfigRead`: `config.AccountAccessToken` is read without
a nil test. -/
def pathConfigRead (s : Storage) : Outcome (Option Response) :=
  match getConfig s with
  | .error err => .error err
  | .ok none => .fault nilPointerDereference
  | .ok (some config) =>
    .ok (some { Data := [("account_access_token", .str config.AccountAccessToken)] })

/-- The method `PathConfigExistenceCheck`. -/
def PathConfigExistenceCheck (s : Storage) : Except String Bool :=
  match s.Get configStoragePath with
  | .error err => .error ("existence check failed: " ++ err)
  | .ok out => .ok out.isSome

/-! ## Upstream API client (`client.go`) -/

/-- The constant `hostURL`. -/
def hostURL : String := "https://api.rollbar.com/api/1"

/-- The struct `rollbarClient`; `timeout` is the `Timeout` of its
`http.Client`. -/
structure rollbarClient where
  timeout : Int
  hostURL : String
  accountAccessToken : String
  deriving DecidableEq, Repr

/-- An `http.Request`: method, URL, header lines in order, optional body. -/
structure HttpRequest where
  method : String
  url : String
  header : List (String × String) := []
  body : Option String := none
  deriving DecidableEq, Repr

/-- An `http.Response`: status code and the result of `io.ReadAll` on its
body. -/
structure HttpResponse where
  StatusCode : Int
  Body : Except String String

/-- Behaviour of what lies outside the package: the HTTP transport
(`http.Client.Do`), `json.Unmarshal` of a reply body into the anonymous reply
struct followed by the read of `Result.AccessToken`, and
`uuid.GenerateUUID`. -/
structure Env where
  Do : HttpRequest → Except String HttpResponse
  UnmarshalAccessToken : String → Except String String
  GenerateUUID : Except String String

/-- The test `ishex` of `net/url`. -/
def ishex (c : Char) : Bool :=
  ('0' ≤ c ∧ c ≤ '9') ∨ ('a' ≤ c ∧ c ≤ 'f') ∨ ('A' ≤ c ∧ c ≤ 'F')

/-- The test `stringContainsCTLByte` of `net/url`: a byte below 0x20 or the
byte 0x7f occurs. -/
def containsCTLByte (cs : List Char) : Bool :=
  cs.any (fun c => c.toNat < 32 ∨ c.toNat = 127)

/-- Where the escape check stands: between characters, or after a `%` with two
or one hexadecimal digits still due (`first` is the digit already read). -/
inductive EscapeState where
  | plain
  | two
  | one (first : Char)

/-- The escape check of `unescape` in `net/url`: the text of the first `%` that
is not followed by two hexadecimal digits (cut to three characters), or `none`
when every escape is complete. -/
def badEscape : EscapeState → List Char → Option String
  | .plain, [] => none
  | .two, [] => some "%"
  | .one first, [] => some (String.mk ['%', first])
  | .plain, c :: rest => if c = '%' then badEscape .two rest else badEscape .plain rest
  | .two, c :: rest =>
    if ishex c then badEscape (.one c) rest
    else some (String.mk ('%' :: c :: rest.take 1))
  | .one first, c :: rest =>
    if ishex c then badEscape .plain rest else some (String.mk ['%', first, c])

/-- The refusals of `url.Parse` that depend on the text after the host: a
control byte before the fragment, an incomplete `%` escape in the path (the
text before the first `?`), an incomplete `%` escape in the fragment (the text
after the first `#`). The result is the error text, or `none` when the URL is
accepted. The scheme and authority checks of the parser are not represented:
every URL built by this package starts with `hostURL`, which passes them. -/
def urlParseError (url : String) : Option String :=
  let u := url.data.takeWhile (fun c => c != '#')
  let frag := (url.data.dropWhile (fun c => c != '#')).drop 1
  if containsCTLByte u then
    some ("parse \"" ++ String.mk u ++ "\": net/url: invalid control character in URL")
  else
    match badEscape .plain (u.takeWhile (fun c => c != '?')) with
    | some esc => some ("parse \"" ++ String.mk u ++ "\": invalid URL escape \"" ++ esc ++ "\"")
    | none =>
      match badEscape .plain frag with
      | some esc => some ("parse \"" ++ url ++ "\": invalid URL escape \"" ++ esc ++ "\"")
      | none => none

/-- The constructor `http.NewRequest` for the methods used here: the request,
or the error of `url.Parse` when it refuses the URL. -/
def NewRequest (method url : String) (body : Option String) : Except String HttpRequest :=
  match urlParseError url with
  | some err => .error err
  | none => .ok { method := method, url := url, body := body }

/-- The method `Header.Add`. Header names are kept as the source writes them
(`net/http` stores them in canonical case). -/
def HttpRequest.HeaderAdd (req : HttpRequest) (key value : String) : HttpRequest :=
  { req with header := req.header ++ [(key, value)] }

/-- The method `Header.Set`: earlier values of the key are dropped. -/
def HttpRequest.HeaderSet (req : HttpRequest) (key value : String) : HttpRequest :=
  { req with header := req.header.filter (fun kv => kv.1 != key) ++ [(key, value)] }

/-- The function `NewClient`; `none` is the nil config. -/
def NewClient (config : Option RollbarConfig) : Except String rollbarClient :=
  match config with
  | none => .error "client configuration is nil"
  | some config =>
    if config.AccountAccessToken = "" then
      .error "client account access token is not defined"
    else
      .ok { timeout := 10 * Second, hostURL := hostURL,
            accountAccessToken := config.AccountAccessToken }

/-- The method `DoRequest`, returning its result and the requests handed to
the transport. -/
def rollbarClient.DoRequest (c : rollbarClient) (env : Env) (req : HttpRequest) :
    Except String String × List HttpRequest :=
  let req := req.HeaderSet "X-Rollbar-Access-Token" c.accountAccessToken
  match env.Do req with
  | .error err => (.error err, [req])
  | .ok res =>
    match res.Body with
    | .error err => (.error err, [req])
    | .ok body =>
      if res.StatusCode ≠ 200 then
        (.error ("status: " ++ toString res.StatusCode ++ ", body: " ++ body), [req])
      else
        (.ok body, [req])

/-- The method `rollbarClient.deleteProjectAccessToken`. The error of
`http.NewRequest` is discarded (`req, _ := ...`), so when the URL is refused
`req` is nil and `req.Header.Add` stops with a nil pointer dereference. -/
def rollbarClient.deleteProjectAccessToken (r : rollbarClient) (env : Env) (projectID : Int)
    (pat : String) : Outcome Unit × List HttpRequest :=
  let url := r.hostURL ++ "/project/" ++ toString projectID ++ "/access_token/" ++ pat
  match NewRequest "DELETE" url none with
  | .error _ => (.fault nilPointerDereference, [])
  | .ok req =>
    let req := req.HeaderAdd "accept" "application/json"
    match r.DoRequest env req with
    | (.error err, sent) => (.error err, sent)
    | (.ok _, sent) => (.ok (), sent)

/-- The method `rollbarClient.CreateProjectAccessToken`. -/
def rollbarClient.CreateProjectAccessToken (r : rollbarClient) (env : Env) (scopes : String)
    (projectID : Int) (name : String) : Except String String × List HttpRequest :=
  let url := r.hostURL ++ "/project/" ++ toString projectID ++ "/access_tokens"
  let payload := "\x7b\"status\":\"enabled\",\"scopes\":[\"" ++ scopes ++ "\"],\"name\":\"" ++ name ++ "\"\x7d"
  match NewRequest "POST" url (some payload) with
  | .error err => (.error err, [])
  | .ok req =>
    let req := req.HeaderAdd "accept" "application/json"
    let req := req.HeaderAdd "content-type" "application/json"
    match r.DoRequest env req with
    | (.error err, sent) => (.error err, sent)
    | (.ok body, sent) =>
      match env.UnmarshalAccessToken body with
      | .error err => (.error err, sent)
      | .ok accessToken => (.ok accessToken, sent)

/-! ## Client cache (`backend.go`) -/

/-- The mutable part of the struct `RollbarBackend`: the cached client. -/
structure RollbarBackend where
  client : Option rollbarClient := none
  deriving DecidableEq, Repr

/-- The method `reset`. -/
def RollbarBackend.reset (_b : RollbarBackend) : RollbarBackend :=
  { client := none }

/-- The method `invalidate`. -/
def RollbarBackend.invalidate (b : RollbarBackend) (key : String) : RollbarBackend :=
  if key = "config" then b.reset else b

/-- The method `getClient`, returning its result and the backend it leaves
behind. The assignment `b.client, err = NewClient(config)` stores nil when the
construction fails. -/
def RollbarBackend.getClient (b : RollbarBackend) (s : Storage) :
    Except String rollbarClient × RollbarBackend :=
  match b.client with
  | some client => (.ok client, b)
  | none =>
    match getConfig s with
    | .error err => (.error err, b)
    | .ok config =>
      let config : RollbarConfig :=
        match config with
        | some config => config
        | none => {}
      match NewClient (some config) with
      | .error err => (.error err, { client := none })
      | .ok client => (.ok client, { client := some client })

/-! ## Config handlers that touch the cache (`path_config.go`) -/

/-- The handler `pathConfigWrite`. -/
def pathConfigWrite (op : Operation) (b : RollbarBackend) (s : Storage) (d : FieldData) :
    Outcome (Option Response) × RollbarBackend × Storage :=
  match getConfig s with
  | .error err => (.error err, b, s)
  | .ok config =>
    let createOperation := decide (op = Operation.CreateOperation)
    if config.isNone ∧ createOperation = false then
      (.error "config not found during update operation", b, s)
    else
      let config : RollbarConfig :=
        match config with
        | some config => config
        | none => {}
      let updated : Except String RollbarConfig :=
        match d.account_access_token with
        | some accountAccessToken => .ok { config with AccountAccessToken := accountAccessToken }
        | none =>
          if createOperation then .error "missing Account Access Token in configuration"
          else .ok config
      match updated with
      | .error err => (.error err, b, s)
      | .ok config =>
        match StorageEntryJSONConfig configStoragePath config with
        | .error err => (.error err, b, s)
        | .ok entry =>
          match s.Put entry with
          | .error err => (.error err, b, s)
          | .ok s' => (.ok none, b.reset, s')

/-- The handler `pathConfigDelete`. -/
def pathConfigDelete (b : RollbarBackend) (s : Storage) :
    Outcome (Option Response) × RollbarBackend × Storage :=
  match s.Delete configStoragePath with
  | .error err => (.error err, b, s)
  | .ok s' => (.ok none, b.reset, s')

/-! ## The leased secret (`project_access_token.go`) -/

/-- The constant `rollbarProjectAccessTokenType`. -/
def rollbarProjectAccessTokenType : String := "rollbar_project_access_token"

/-- The part of a `framework.Secret` declaration that fixes the lease a fresh
response starts with. -/
structure FrameworkSecret where
  secretType : String
  DefaultDuration : Int := 0
  deriving DecidableEq, Repr

/-- The method `rollbarProjectAccessToken`: no default duration is declared. -/
def rollbarProjectAccessToken : FrameworkSecret :=
  { secretType := rollbarProjectAccessTokenType }

/-- The method `framework.Secret.Response` of the library: the response
carries the data map; its secret carries a copy of the internal map in which
the key `secret_type` is set to the type of the secret, and a lease that
starts at the declared default duration with no maximum. -/
def FrameworkSecret.Response (fs : FrameworkSecret) (data internal : List (String × Value)) :
    Response :=
  { Secret := some
      { TTL := fs.DefaultDuration, MaxTTL := 0,
        InternalData :=
          internal.filter (fun kv => kv.1 != "secret_type")
            ++ [("secret_type", .str fs.secretType)] },
    Data := data }

/-- The function `createProjectAccessToken`. -/
def createProjectAccessToken (env : Env) (c : rollbarClient) (scopes : String) (projectID : Int)
    (name : String) : Except String String × List HttpRequest :=
  c.CreateProjectAccessToken env scopes projectID name

/-- The function `deleteProjectAccessToken`. -/
def deleteProjectAccessToken (env : Env) (c : rollbarClient) (projectID : Int) (pat : String) :
    Outcome Unit × List HttpRequest :=
  c.deleteProjectAccessToken env projectID pat

/-- The handler `projectAccessTokenRenew` for the secret of the request. -/
def projectAccessTokenRenew (s : Storage) (secret : Secret) : Outcome (Option Response) :=
  match secret.InternalData.lookup "role" with
  | none => .error "secret is missing role internal data"
  | some (.int _) => .fault interfaceConversion
  | some (.str role) =>
    match getRole s role with
    | .error err => .error ("error retrieving role: " ++ err)
    | .ok none => .error "error retrieving role: role is nil"
    | .ok (some roleEntry) =>
      let secret := if roleEntry.TTL > 0 then { secret with TTL := roleEntry.TTL } else secret
      let secret :=
        if roleEntry.MaxTTL > 0 then { secret with MaxTTL := roleEntry.MaxTTL } else secret
      .ok (some { Secret := some secret })

/-- The handler `projectAccessTokenRevoke` for the secret of the request,
returning its result, the backend it leaves behind and the requests handed to
the transport. `roleEntry.ProjectID` is read without a nil test. -/
def projectAccessTokenRevoke (env : Env) (b : RollbarBackend) (s : Storage) (secret : Secret) :
    Outcome (Option Response) × RollbarBackend × List HttpRequest :=
  match b.getClient s with
  | (.error err, b') => (.error ("error getting client: " ++ err), b', [])
  | (.ok client, b') =>
    let patRaw : Except String String :=
      match secret.InternalData.lookup "project_access_token" with
      | none => .ok ""
      | some (.str pat) => .ok pat
      | some (.int _) =>
        .error "invalid value for project access token in secret internal data"
    match patRaw with
    | .error err => (.error err, b', [])
    | .ok pat =>
      match secret.InternalData.lookup "role" with
      | none => (.error "secret is missing role internal data", b', [])
      | some (.int _) => (.fault interfaceConversion, b', [])
      | some (.str role) =>
        match getRole s role with
        | .error err => (.error ("error retrieving role: " ++ err), b', [])
        | .ok none => (.fault nilPointerDereference, b', [])
        | .ok (some roleEntry) =>
          match deleteProjectAccessToken env client roleEntry.ProjectID pat with
          | (.fault what, sent) => (.fault what, b', sent)
          | (.error err, sent) =>
            (.error ("error revoking project access token: " ++ err), b', sent)
          | (.ok _, sent) => (.ok none, b', sent)

/-! ## Issue (`path_project_access_token.go`) -/

/-- The handler `pathProjectAccessTokenRead`, returning its result, the backend
it leaves behind and the requests handed to the transport. The role entry
returned by `getRole` is used without a nil test: its fields are first read
when the arguments of `createProjectAccessToken` are evaluated. -/
def pathProjectAccessTokenRead (env : Env) (b : RollbarBackend) (s : Storage) (d : FieldData) :
    Outcome (Option Response) × RollbarBackend × List HttpRequest :=
  let roleName := d.name.getD ""
  match getRole s roleName with
  | .error err => (.error ("error retrieving role: " ++ err), b, [])
  | .ok roleEntry =>
    match b.getClient s with
    | (.error err, b') => (.error ("error getting client: " ++ err), b', [])
    | (.ok client, b') =>
      match env.GenerateUUID with
      | .error err =>
        (.error ("error generating UUID for project access token name: " ++ err), b', [])
      | .ok uuid =>
        let patName := roleName ++ "-" ++ uuid
        match roleEntry with
        | none => (.fault nilPointerDereference, b', [])
        | some roleEntry =>
          match createProjectAccessToken env client roleEntry.ProjectAccessTokenScopes
              roleEntry.ProjectID patName with
          | (.error err, sent) =>
            (.error ("error creating project access token: " ++ err), b', sent)
          | (.ok pat, sent) =>
            if pat = "" then
              (.error "error creating project access token: %!w(<nil>)", b', sent)
            else
              let resp := rollbarProjectAccessToken.Response
                [("project_access_token", .str pat)]
                [("project_access_token", .str pat), ("role", .str roleEntry.Name)]
              let resp :=
                if roleEntry.TTL > 0 then
                  { resp with Secret := resp.Secret.map (fun sec => { sec with TTL := roleEntry.TTL }) }
                else resp
              let resp :=
                if roleEntry.MaxTTL > 0 then
                  { resp with
                    Secret := resp.Secret.map (fun sec => { sec with MaxTTL := roleEntry.MaxTTL }) }
                else resp
              (.ok (some resp), b', sent)

/-! ## Sequential runs of the config and cache operations -/

/-- The backend together with its storage. -/
structure BackendState where
  backend : RollbarBackend
  storage : Storage
  deriving DecidableEq, Repr

/-- One call among config write, config delete, `invalidate` and
`getClient`, with its arguments. -/
inductive CacheOp where
  | configWrite (op : Operation) (d : FieldData)
  | configDelete
  | invalidate (key : String)
  | getClient
  deriving DecidableEq, Repr

/-- The state left by one call. -/
def BackendState.step (st : BackendState) : CacheOp → BackendState
  | .configWrite op d =>
    let out := pathConfigWrite op st.backend st.storage d
    { backend := out.2.1, storage := out.2.2 }
  | .configDelete =>
    let out := pathConfigDelete st.backend st.storage
    { backend := out.2.1, storage := out.2.2 }
  | .invalidate key => { st with backend := st.backend.invalidate key }
  | .getClient => { st with backend := (st.backend.getClient st.storage).2 }

/-- The state left by a sequence of calls, first call first. -/
def BackendState.run (st : BackendState) (ops : List CacheOp) : BackendState :=
  ops.foldl BackendState.step st

/-- The initial backend state over a storage: no client is cached. -/
def BackendState.initial (s : Storage) : BackendState :=
  { backend := { client := none }, storage := s }

/-- Cache coherence: a cached client has a non-empty account credential, a
config is stored, its `account_access_token` is that credential, and the
client is the one `NewClient` builds from that config. -/
def CacheCoherent (st : BackendState) : Prop :=
  ∀ client, st.backend.client = some client →
    client.accountAccessToken ≠ ""
      ∧ ∃ config, getConfig st.storage = .ok (some config)
          ∧ config.AccountAccessToken = client.accountAccessToken
          ∧ NewClient (some config) = .ok client

/-! ## JSON documents

The wire contract speaks of the request body as a JSON document. The
definitions of this section give that notion: JSON values and a reader for the
grammar of RFC 8259 over the characters of a string. -/

/-- A JSON value. A number keeps its text. -/
inductive JSON where
  | null
  | bool (b : Bool)
  | num (text : String)
  | str (s : String)
  | arr (elems : List JSON)
  | obj (members : List (String × JSON))

/-- Removal of leading JSON whitespace (space, tab, line feed, carriage
return). -/
def skipWs : List Char → List Char
  | [] => []
  | c :: rest =>
    if c = ' ' ∨ c = '\t' ∨ c = '\n' ∨ c = '\r' then skipWs rest else c :: rest

/-- Value of a hexadecimal digit. -/
def hexDigit (c : Char) : Option Nat :=
  if '0' ≤ c ∧ c ≤ '9' then some (c.toNat - 48)
  else if 'a' ≤ c ∧ c ≤ 'f' then some (c.toNat - 87)
  else if 'A' ≤ c ∧ c ≤ 'F' then some (c.toNat - 55)
  else none

/-- Where the reader stands inside a JSON string: between characters, right
after a backslash, or inside a `\u` escape with `left` digits to read. -/
inductive StringState where
  | plain
  | escape
  | hex (left : Nat) (code : Nat)

/-- Reader of a JSON string after its opening quote: the characters read so far
are `acc`; the result is the string and the input after the closing quote. An
unescaped quote closes the string; a backslash must start one of the escapes of
the grammar; a control character (below U+0020) is refused. -/
def scanString : StringState → List Char → List Char → Option (String × List Char)
  | _, _, [] => none
  | .plain, acc, c :: rest =>
    if c = '"' then some (String.mk acc, rest)
    else if c = '\\' then scanString .escape acc rest
    else if c.toNat < 32 then none
    else scanString .plain (acc ++ [c]) rest
  | .escape, acc, c :: rest =>
    if c = '"' then scanString .plain (acc ++ ['"']) rest
    else if c = '\\' then scanString .plain (acc ++ ['\\']) rest
    else if c = '/' then scanString .plain (acc ++ ['/']) rest
    else if c = 'b' then scanString .plain (acc ++ [Char.ofNat 8]) rest
    else if c = 'f' then scanString .plain (acc ++ [Char.ofNat 12]) rest
    else if c = 'n' then scanString .plain (acc ++ ['\n']) rest
    else if c = 'r' then scanString .plain (acc ++ ['\r']) rest
    else if c = 't' then scanString .plain (acc ++ ['\t']) rest
    else if c = 'u' then scanString (.hex 4 0) acc rest
    else none
  | .hex 0 _, _, _ :: _ => none
  | .hex (left + 1) code, acc, c :: rest =>
    match hexDigit c with
    | none => none
    | some d =>
      if left = 0 then scanString .plain (acc ++ [Char.ofNat (code * 16 + d)]) rest
      else scanString (.hex left (code * 16 + d)) acc rest

/-- Where the reader stands inside a JSON number. -/
inductive NumberState where
  | start
  | minus
  | zero
  | int
  | point
  | frac
  | expMark
  | expSign
  | exp
  deriving DecidableEq

/-- The states in which the text read so far is a complete number. -/
def NumberState.complete : NumberState → Bool
  | .zero | .int | .frac | .exp => true
  | _ => false

/-- The state after reading `c`, or `none` when `c` cannot extend the number. -/
def NumberState.next (st : NumberState) (c : Char) : Option NumberState :=
  let digit := decide ('0' ≤ c ∧ c ≤ '9')
  match st with
  | .start => if c = '-' then some .minus else if c = '0' then some .zero
              else if digit then some .int else none
  | .minus => if c = '0' then some .zero else if digit then some .int else none
  | .zero => if c = '.' then some .point else if c = 'e' ∨ c = 'E' then some .expMark else none
  | .int => if digit then some .int else if c = '.' then some .point
            else if c = 'e' ∨ c = 'E' then some .expMark else none
  | .point => if digit then some .frac else none
  | .frac => if digit then some .frac else if c = 'e' ∨ c = 'E' then some .expMark else none
  | .expMark => if c = '+' ∨ c = '-' then some .expSign else if digit then some .exp else none
  | .expSign => if digit then some .exp else none
  | .exp => if digit then some .exp else none

/-- Reader of a JSON number: the longest text that the grammar accepts. -/
def scanNumber : NumberState → List Char → List Char → Option (String × List Char)
  | st, acc, [] => if st.complete then some (String.mk acc, []) else none
  | st, acc, c :: rest =>
    match st.next c with
    | some st' => scanNumber st' (acc ++ [c]) rest
    | none => if st.complete then some (String.mk acc, c :: rest) else none

mutual

/-- Reader of one JSON value, with the input left after it. `fuel` bounds the
number of nested reader calls. -/
def readValue : Nat → List Char → Option (JSON × List Char)
  | 0, _ => none
  | fuel + 1, cs =>
    match skipWs cs with
    | [] => none
    | c :: rest =>
      if c = '"' then
        match scanString .plain [] rest with
        | some (s, rest') => some (.str s, rest')
        | none => none
      else if c = '[' then
        match skipWs rest with
        | ']' :: rest' => some (.arr [], rest')
        | _ => match readElems fuel rest with
          | some (elems, rest') => some (.arr elems, rest')
          | none => none
      else if c = '{' then
        match skipWs rest with
        | '}' :: rest' => some (.obj [], rest')
        | _ => match readMembers fuel rest with
          | some (members, rest') => some (.obj members, rest')
          | none => none
      else
        match c :: rest with
        | 't' :: 'r' :: 'u' :: 'e' :: rest' => some (.bool true, rest')
        | 'f' :: 'a' :: 'l' :: 's' :: 'e' :: rest' => some (.bool false, rest')
        | 'n' :: 'u' :: 'l' :: 'l' :: rest' => some (.null, rest')
        | _ =>
          match scanNumber .start [] (c :: rest) with
          | some (text, rest') => some (.num text, rest')
          | none => none

/-- Reader of the elements of an array after `[`, up to and including `]`. -/
def readElems : Nat → List Char → Option (List JSON × List Char)
  | 0, _ => none
  | fuel + 1, cs =>
    match readValue fuel cs with
    | none => none
    | some (v, rest) =>
      match skipWs rest with
      | ',' :: rest' =>
        match readElems fuel rest' with
        | some (vs, rest'') => some (v :: vs, rest'')
        | none => none
      | ']' :: rest' => some ([v], rest')
      | _ => none

/-- Reader of the members of an object after `{`, up to and including `}`. -/
def readMembers : Nat → List Char → Option (List (String × JSON) × List Char)
  | 0, _ => none
  | fuel + 1, cs =>
    match skipWs cs with
    | '"' :: rest =>
      match scanString .plain [] rest with
      | none => none
      | some (key, rest') =>
        match skipWs rest' with
        | ':' :: rest'' =>
          match readValue fuel rest'' with
          | none => none
          | some (v, rest3) =>
            match skipWs rest3 with
            | ',' :: rest4 =>
              match readMembers fuel rest4 with
              | some (ms, rest5) => some ((key, v) :: ms, rest5)
              | none => none
            | '}' :: rest4 => some ([(key, v)], rest4)
            | _ => none
        | _ => none
    | _ => none

end

/-- The string `body` is a JSON document with value `v`: some amount of fuel
lets the reader take `v` from it, with only whitespace left over. -/
def IsJSONDocument (body : String) (v : JSON) : Prop :=
  ∃ fuel rest, readValue fuel body.data = some (v, rest) ∧ skipWs rest = []

/-- The value read from `body` with fuel for every character, when `body` is a
JSON document. -/
def parseJSON (body : String) : Option JSON :=
  match readValue (body.length + 1) body.data with
  | some (v, rest) => if skipWs rest = [] then some v else none
  | none => none

/-- The JSON object of the token creation request: `status` is `enabled`,
`scopes` is the array of the one scope, `name` is the token name. -/
def createTokenDocument (scope name : String) : JSON :=
  .obj [("status", .str "enabled"), ("scopes", .arr [.str scope]), ("name", .str name)]

/-- A character that stands for itself inside a JSON string: not the quote,
not the backslash, not a control character. -/
def PlainChar (c : Char) : Prop :=
  c ≠ '"' ∧ c ≠ '\\' ∧ ¬ c.toNat < 32

/-! ## Sample data -/

/-- A role `r1` for project 42 with scope `read`, ttl 3600 s, max_ttl 7200 s. -/
def sampleRole : RollbarRoleEntry :=
  { Name := "r1", ProjectID := 42, ProjectAccessTokenScopes := "read",
    TTL := 3600 * Second, MaxTTL := 7200 * Second }

/-- A storage holding only `sampleRole`. -/
def sampleRoleStorage : Storage :=
  [{ Key := "roles/r1", Value := .role sampleRole }]

/-- The storage entry of a config whose account access token is `tok`. -/
def sampleConfigEntry : StorageEntry :=
  { Key := "config", Value := .config { AccountAccessToken := "tok" } }

/-- A storage holding `sampleRole` and the sample config. -/
def sampleStorage : Storage :=
  [{ Key := "roles/r1", Value := .role sampleRole }, sampleConfigEntry]

/-- A storage holding only the sample config: no role is stored. -/
def sampleConfigStorage : Storage :=
  [sampleConfigEntry]

/-- The role `r1` for project 42 with scope `read` and both durations zero. -/
def zeroTTLRole : RollbarRoleEntry :=
  { Name := "r1", ProjectID := 42, ProjectAccessTokenScopes := "read", TTL := 0, MaxTTL := 0 }

/-- A storage holding `zeroTTLRole` and the sample config. -/
def zeroTTLStorage : Storage :=
  [{ Key := "roles/r1", Value := .role zeroTTLRole }, sampleConfigEntry]

/-- The reply body of a successful token creation carrying `abc123`. -/
def sampleReplyBody : String :=
  "\x7b\"result\":\x7b\"access_token\":\"abc123\"\x7d\x7d"

/-- A remote service that answers every request with status 200 and
`sampleReplyBody`; the UUID source yields `u1`. -/
def sampleEnv : Env :=
  { Do := fun _ => .ok { StatusCode := 200, Body := .ok sampleReplyBody },
    UnmarshalAccessToken := fun body =>
      if body = sampleReplyBody then .ok "abc123" else .error "unexpected end of JSON input",
    GenerateUUID := .ok "u1" }

/-- A remote service that answers every request with status 404. -/
def failingEnv : Env :=
  { Do := fun _ => .ok { StatusCode := 404, Body := .ok "not found" },
    UnmarshalAccessToken := fun _ => .error "unexpected end of JSON input",
    GenerateUUID := .ok "u1" }

/-- The client that `NewClient` builds from the sample config. -/
def sampleClient : rollbarClient :=
  { timeout := 10 * Second, hostURL := hostURL, accountAccessToken := "tok" }

/-- A client built from an earlier config whose token was `old`. -/
def staleClient : rollbarClient :=
  { timeout := 10 * Second, hostURL := hostURL, accountAccessToken := "old" }

/-- A secret issued for role `r1` with token `abc123`, leased for 3600 s with
a maximum of 7200 s. -/
def sampleSecret : Secret :=
  { TTL := 3600 * Second, MaxTTL := 7200 * Second,
    InternalData := [("project_access_token", .str "abc123"), ("role", .str "r1")] }

/-- The body that `CreateProjectAccessToken` builds for the scope `a"b` and the
token name `r1-u1`. -/
def quoteScopeBody : String :=
  "\x7b\"status\":\"enabled\",\"scopes\":[\"a\"b\"],\"name\":\"r1-u1\"\x7d"

/-- The body that `CreateProjectAccessToken` builds for the scope `read","write`
and the token name `r1-u1`. -/
def twoScopeBody : String :=
  "\x7b\"status\":\"enabled\",\"scopes\":[\"read\",\"write\"],\"name\":\"r1-u1\"\x7d"

/-! ## Storage lemmas -/

theorem roleKey_ne_configKey (name : String) : pathRoleDef ++ name ≠ configStoragePath := by
  intro h
  have hdata := congrArg String.data h
  simp [pathRoleDef, configStoragePath] at hdata

theorem Storage.Get_filter_other (s : Storage) (key other : String) (h : other ≠ key) :
    Storage.Get (s.filter (fun e => e.Key != key)) other = Storage.Get s other := by
  induction s with
  | nil => rfl
  | cons e rest ih =>
    simp only [Storage.Get, Except.ok.injEq] at ih ⊢
    by_cases hk : e.Key = key
    · have hb : (e.Key == other) = false := by
        simpa using fun h2 : e.Key = other => h (h2 ▸ hk)
      have hf : (e.Key != key) = false := by simp [hk]
      simp only [List.filter_cons, List.find?_cons, hf, hb]
      simpa using ih
    · have hf : (e.Key != key) = true := by simpa using hk
      by_cases ho : e.Key = other
      · have hb : (e.Key == other) = true := by simpa using ho
        simp only [List.filter_cons, List.find?_cons, hf, hb, if_true]
      · have hb : (e.Key == other) = false := by simpa using ho
        simp only [List.filter_cons, List.find?_cons, hf, hb, if_true]
        exact ih

theorem Storage.Get_filter_same (s : Storage) (key : String) :
    Storage.Get (s.filter (fun e => e.Key != key)) key = .ok none := by
  simp [Storage.Get, List.find?_eq_none]

theorem roleKey_ne_pathRoleDef (name : String) (hne : name ≠ "") :
    pathRoleDef ++ name ≠ pathRoleDef := by
  intro h
  have hdata := congrArg String.data h
  simp [pathRoleDef] at hdata
  apply hne
  exact String.ext hdata

theorem Storage.Get_Put_other (s : Storage) (entry : StorageEntry) (other : String)
    (h : other ≠ entry.Key) :
    Storage.Get (entry :: s.filter (fun e => e.Key != entry.Key)) other = Storage.Get s other := by
  have hb : (entry.Key == other) = false := by simpa using Ne.symm h
  have h2 := Storage.Get_filter_other s entry.Key other h
  simp only [Storage.Get, Except.ok.injEq] at h2 ⊢
  rw [List.find?_cons_of_neg _ (by simp [hb]), h2]

/-! ## URLs accepted by the request constructor -/

/-- A text without `%` has no incomplete escape. -/
theorem badEscape_none_of_no_percent (cs : List Char) (h : ∀ c ∈ cs, c ≠ '%') :
    badEscape .plain cs = none := by
  induction cs with
  | nil => rfl
  | cons c rest ih =>
    have hc := h c (List.mem_cons_self c rest)
    simp only [badEscape, hc, if_false]
    exact ih (fun x hx => h x (List.mem_cons_of_mem c hx))

theorem takeWhile_eq_self_of_all {p : Char → Bool} (cs : List Char) (h : ∀ c ∈ cs, p c = true) :
    cs.takeWhile p = cs := by
  induction cs with
  | nil => rfl
  | cons c rest ih =>
    simp only [List.takeWhile, h c (List.mem_cons_self c rest)]
    rw [ih (fun x hx => h x (List.mem_cons_of_mem c hx))]

theorem dropWhile_eq_nil_of_all {p : Char → Bool} (cs : List Char) (h : ∀ c ∈ cs, p c = true) :
    cs.dropWhile p = [] := by
  induction cs with
  | nil => rfl
  | cons c rest ih =>
    simp only [List.dropWhile, h c (List.mem_cons_self c rest)]
    exact ih (fun x hx => h x (List.mem_cons_of_mem c hx))

/-- A URL without `#`, `%` and control bytes is accepted by the checks of
`urlParseError`. -/
theorem urlParseError_none_of_safe (url : String)
    (h : ∀ c ∈ url.data, c ≠ '#' ∧ c ≠ '%' ∧ ¬ (c.toNat < 32 ∨ c.toNat = 127)) :
    urlParseError url = none := by
  have hu : url.data.takeWhile (fun c => c != '#') = url.data :=
    takeWhile_eq_self_of_all _ (fun c hc => by simpa using (h c hc).1)
  have hf : url.data.dropWhile (fun c => c != '#') = [] :=
    dropWhile_eq_nil_of_all _ (fun c hc => by simpa using (h c hc).1)
  have hctl : containsCTLByte url.data = false := by
    simp only [containsCTLByte, List.any_eq_false]
    intro c hc
    simpa using (h c hc).2.2
  have hpath : badEscape .plain (url.data.takeWhile (fun c => c != '?')) = none :=
    badEscape_none_of_no_percent _
      (fun c hc => (h c (List.takeWhile_subset _ hc)).2.1)
  simp [urlParseError, hu, hf, hctl, hpath, badEscape]

theorem digitChar_safe (k : Nat) (hk : k < 10) :
    Nat.digitChar k ≠ '#' ∧ Nat.digitChar k ≠ '%'
      ∧ ¬ ((Nat.digitChar k).toNat < 32 ∨ (Nat.digitChar k).toNat = 127) := by
  interval_cases k <;> decide

theorem toDigitsCore_safe (fuel n : Nat) (ds : List Char)
    (hds : ∀ c ∈ ds, c ≠ '#' ∧ c ≠ '%' ∧ ¬ (c.toNat < 32 ∨ c.toNat = 127)) :
    ∀ c ∈ Nat.toDigitsCore 10 fuel n ds,
      c ≠ '#' ∧ c ≠ '%' ∧ ¬ (c.toNat < 32 ∨ c.toNat = 127) := by
  induction fuel generalizing n ds with
  | zero => simpa [Nat.toDigitsCore] using hds
  | succ fuel ih =>
    have hcons : ∀ c ∈ Nat.digitChar (n % 10) :: ds,
        c ≠ '#' ∧ c ≠ '%' ∧ ¬ (c.toNat < 32 ∨ c.toNat = 127) := by
      intro c hc
      rcases List.mem_cons.mp hc with rfl | hc
      · exact digitChar_safe _ (Nat.mod_lt _ (by decide))
      · exact hds c hc
    simp only [Nat.toDigitsCore]
    split
    · exact hcons
    · exact ih _ _ hcons

/-- The decimal text of an integer has no `#`, no `%` and no control byte. -/
theorem toString_int_safe (i : Int) :
    ∀ c ∈ (toString i).data, c ≠ '#' ∧ c ≠ '%' ∧ ¬ (c.toNat < 32 ∨ c.toNat = 127) := by
  have hnat : ∀ n : Nat, ∀ c ∈ (toString n).data,
      c ≠ '#' ∧ c ≠ '%' ∧ ¬ (c.toNat < 32 ∨ c.toNat = 127) := by
    intro n c hc
    have hc' : c ∈ Nat.toDigitsCore 10 (n + 1) n [] := by
      simpa [toString, Nat.repr, Nat.toDigits, List.asString] using hc
    exact toDigitsCore_safe _ _ [] (by simp) c hc'
  cases i with
  | ofNat m =>
    intro c hc
    exact hnat m c (by simpa [toString] using hc)
  | negSucc m =>
    intro c hc
    have hc' : c ∈ ("-" ++ toString (m + 1)).data := by simpa [toString] using hc
    rw [String.data_append] at hc'
    rcases List.mem_append.mp hc' with h | h
    · have : c = '-' := by simpa using h
      subst this
      decide
    · exact hnat _ c h

/-- The URL of the token creation request under `hostURL` is accepted for every
project id. -/
theorem createURL_accepted (projectID : Int) :
    urlParseError (hostURL ++ "/project/" ++ toString projectID ++ "/access_tokens") = none := by
  apply urlParseError_none_of_safe
  intro c hc
  simp only [String.data_append, List.mem_append] at hc
  rcases hc with ((h | h) | h) | h
  · revert c
    decide
  · revert c
    decide
  · exact toString_int_safe projectID c h
  · revert c
    decide

/-- The URL of the token deletion request under `hostURL` is accepted for every
project id and every token without `#`, `%` and control bytes. -/
theorem deleteURL_accepted (projectID : Int) (pat : String)
    (hpat : ∀ c ∈ pat.data, c ≠ '#' ∧ c ≠ '%' ∧ ¬ (c.toNat < 32 ∨ c.toNat = 127)) :
    urlParseError (hostURL ++ "/project/" ++ toString projectID ++ "/access_token/" ++ pat)
      = none := by
  apply urlParseError_none_of_safe
  intro c hc
  simp only [String.data_append, List.mem_append] at hc
  rcases hc with (((h | h) | h) | h) | h
  · revert c
    decide
  · revert c
    decide
  · exact toString_int_safe projectID c h
  · revert c
    decide
  · exact hpat c h

/-! ## Role writes -/

/-- C1. A role write (any operation, role present or absent) whose merged entry
has `max_ttl > 0` and `ttl > max_ttl` answers with the error response
"ttl cannot be greater than max_ttl" and returns the storage it was given. -/
theorem pathRolesWrite_rejects_ttl_above_max_ttl (op : Operation) (s : Storage) (d : FieldData)
    (name : String) (projectID : Int) (stored : Option RollbarRoleEntry)
    (hname : d.name = some name) (hne : name ≠ "")
    (hpid : d.project_id = some projectID) (hp0 : projectID ≠ 0)
    (hget : getRole s name = .ok stored)
    (hmax : 0 < (mergeRoleFields (decide (op = Operation.CreateOperation)) d name projectID
      (initialRoleEntry stored)).MaxTTL)
    (httl : (mergeRoleFields (decide (op = Operation.CreateOperation)) d name projectID
      (initialRoleEntry stored)).MaxTTL
        < (mergeRoleFields (decide (op = Operation.CreateOperation)) d name projectID
      (initialRoleEntry stored)).TTL) :
    pathRolesWrite op s d
      = (.ok (some (ErrorResponse "ttl cannot be greater than max_ttl")), s) := by
  have hmax0 : (mergeRoleFields (decide (op = Operation.CreateOperation)) d name projectID
      (initialRoleEntry stored)).MaxTTL ≠ 0 := ne_of_gt hmax
  simp only [pathRolesWrite, hname, hpid, Option.getD_some, hne, hp0, if_false, hget]
  rw [if_pos ⟨hmax0, httl⟩]

/-- Witness of C1: an update of the stored `r1` (max_ttl 7200 s) asking for
ttl 9000 s is rejected and the storage is unchanged. -/
theorem pathRolesWrite_rejects_ttl_above_max_ttl_witness :
    pathRolesWrite .UpdateOperation sampleRoleStorage
        { name := some "r1", project_id := some 42, ttl := some 9000 }
      = (.ok (some (ErrorResponse "ttl cannot be greater than max_ttl")), sampleRoleStorage) :=
  pathRolesWrite_rejects_ttl_above_max_ttl .UpdateOperation sampleRoleStorage
    { name := some "r1", project_id := some 42, ttl := some 9000 } "r1" 42 (some sampleRole)
    rfl (by decide) rfl (by decide) rfl (by decide) (by decide)

theorem secondsToDuration_zero : secondsToDuration 0 = 0 := by decide

/-- A role write that passes the three checks succeeds, and the role read
back under the name is the merged entry. -/
theorem pathRolesWrite_accepts (op : Operation) (s : Storage) (d : FieldData)
    (name : String) (projectID : Int) (stored : Option RollbarRoleEntry)
    (hname : d.name = some name) (hne : name ≠ "")
    (hpid : d.project_id = some projectID) (hp0 : projectID ≠ 0)
    (hget : getRole s name = .ok stored)
    (hvalid : ¬ ((mergeRoleFields (decide (op = Operation.CreateOperation)) d name projectID
      (initialRoleEntry stored)).MaxTTL ≠ 0
      ∧ (mergeRoleFields (decide (op = Operation.CreateOperation)) d name projectID
      (initialRoleEntry stored)).TTL
        > (mergeRoleFields (decide (op = Operation.CreateOperation)) d name projectID
      (initialRoleEntry stored)).MaxTTL)) :
    (pathRolesWrite op s d).1 = .ok none
      ∧ getRole (pathRolesWrite op s d).2 name
          = .ok (some (mergeRoleFields (decide (op = Operation.CreateOperation)) d name projectID
              (initialRoleEntry stored))) := by
  simp only [pathRolesWrite, hname, hpid, Option.getD_some, hne, hp0, if_false, hget]
  rw [if_neg hvalid]
  simp only [setRole, StorageEntryJSONRole, Storage.Put, true_and]
  simp [getRole, hne, Storage.Get, StorageEntry.DecodeJSONRole]

/-- C2 (what the code does instead). On a create operation for a name with no
stored record, a non-empty name and a non-zero project_id, with neither ttl nor
max_ttl supplied, the write succeeds and the persisted role has ttl 0 and
max_ttl 0: the two defaults placed in the fresh entry are overwritten by the
schema zero of the omitted fields. -/
theorem pathRolesWrite_create_without_ttl_stores_zero (s : Storage) (d : FieldData)
    (name : String)
    (projectID : Int) (hname : d.name = some name) (hne : name ≠ "")
    (hpid : d.project_id = some projectID) (hp0 : projectID ≠ 0)
    (habsent : s.Get (pathRoleDef ++ name) = .ok none)
    (httl : d.ttl = none) (hmax : d.max_ttl = none) :
    (pathRolesWrite .CreateOperation s d).1 = .ok none
      ∧ getRole (pathRolesWrite .CreateOperation s d).2 name
          = .ok (some { Name := name, ProjectID := projectID,
                        ProjectAccessTokenScopes := d.project_access_token_scopes.getD "",
                        TTL := 0, MaxTTL := 0 }) := by
  have hget : getRole s name = .ok none := by simp [getRole, hne, habsent]
  have hmerged : mergeRoleFields (decide (Operation.CreateOperation = Operation.CreateOperation))
      d name projectID (initialRoleEntry none)
      = { Name := name, ProjectID := projectID,
          ProjectAccessTokenScopes := d.project_access_token_scopes.getD "",
          TTL := 0, MaxTTL := 0 } := by
    cases hs : d.project_access_token_scopes <;>
      simp [mergeRoleFields, httl, hmax, hs, secondsToDuration_zero, initialRoleEntry]
  have h := pathRolesWrite_accepts .CreateOperation s d name projectID none hname hne hpid hp0 hget
    (by rw [hmerged]; simp)
  rw [hmerged] at h
  exact h


/-- Witness of C2 at the failing input: creating `r1` for project 42 on an
empty storage persists ttl 0 and max_ttl 0, not 3600 s and 7200 s. -/
theorem pathRolesWrite_create_without_ttl_stores_zero_witness :
    (pathRolesWrite .CreateOperation [] { name := some "r1", project_id := some 42 }).1 = .ok none
      ∧ getRole (pathRolesWrite .CreateOperation []
          { name := some "r1", project_id := some 42 }).2 "r1"
          = .ok (some { Name := "r1", ProjectID := 42, ProjectAccessTokenScopes := "",
                        TTL := 0, MaxTTL := 0 }) :=
  pathRolesWrite_create_without_ttl_stores_zero [] { name := some "r1", project_id := some 42 }
    "r1" 42 rfl (by decide) rfl (by decide) rfl rfl rfl

/-- A write that is not a create operation, to the name of a stored role,
supplying a non-zero project_id and a ttl but neither scopes nor max_ttl, with
the new ttl not above a non-zero stored max_ttl, succeeds; the stored role
afterwards carries the new ttl and the supplied project_id, and its scopes and
max_ttl are the ones stored before. -/
theorem pathRolesWrite_update_ttl_merge (op : Operation) (s : Storage)
    (d : FieldData) (name : String)
    (projectID ttl : Int) (r : RollbarRoleEntry)
    (hop : op ≠ .CreateOperation)
    (hname : d.name = some name) (hne : name ≠ "")
    (hpid : d.project_id = some projectID) (hp0 : projectID ≠ 0)
    (hscopes : d.project_access_token_scopes = none)
    (httl : d.ttl = some ttl) (hmax : d.max_ttl = none)
    (hget : getRole s name = .ok (some r))
    (hvalid : r.MaxTTL = 0 ∨ secondsToDuration ttl ≤ r.MaxTTL) :
    (pathRolesWrite op s d).1 = .ok none
      ∧ getRole (pathRolesWrite op s d).2 name
          = .ok (some { Name := name, ProjectID := projectID,
                        ProjectAccessTokenScopes := r.ProjectAccessTokenScopes,
                        TTL := secondsToDuration ttl, MaxTTL := r.MaxTTL }) := by
  have hmerged : mergeRoleFields (decide (op = Operation.CreateOperation))
      d name projectID (initialRoleEntry (some r))
      = { Name := name, ProjectID := projectID,
          ProjectAccessTokenScopes := r.ProjectAccessTokenScopes,
          TTL := secondsToDuration ttl, MaxTTL := r.MaxTTL } := by
    simp [mergeRoleFields, httl, hmax, hscopes, hop, initialRoleEntry]
  have h := pathRolesWrite_accepts op s d name projectID (some r) hname hne hpid hp0 hget
    (by
      rw [hmerged]
      rintro ⟨h0, hgt⟩
      rcases hvalid with hz | hle
      · exact h0 hz
      · exact absurd hgt (not_lt.mpr hle))
  rw [hmerged] at h
  exact h

/-- A write to a non-empty role name that omits project_id, or supplies 0
for it, is answered "missing project ID" under every operation and returns the
storage it was given. -/
theorem pathRolesWrite_missing_project_id (op : Operation) (s : Storage) (d : FieldData)
    (name : String) (hname : d.name = some name) (hne : name ≠ "")
    (hpid : d.project_id = none ∨ d.project_id = some 0) :
    pathRolesWrite op s d = (.ok (some (ErrorResponse "missing project ID")), s) := by
  rcases hpid with h | h <;> simp [pathRolesWrite, hname, hne, h]

/-- C3 (amended). For every stored role and every write to that role's name:
a write that omits project_id (or supplies 0) is answered "missing project ID"
under every operation and changes nothing; a write that is not a create
operation and supplies a non-zero project_id and a ttl but neither scopes nor
max_ttl, with the new ttl not above a non-zero stored max_ttl, succeeds, and
the stored role afterwards carries the new ttl and the supplied project_id,
with its scopes and max_ttl equal to their values before the write. -/
theorem pathRolesWrite_update_ttl_keeps_other_fields (s : Storage) (name : String)
    (r : RollbarRoleEntry) (hget : getRole s name = .ok (some r)) :
    (∀ (op : Operation) (d : FieldData), d.name = some name →
        (d.project_id = none ∨ d.project_id = some 0) →
        pathRolesWrite op s d = (.ok (some (ErrorResponse "missing project ID")), s))
      ∧ (∀ (op : Operation) (d : FieldData) (projectID ttl : Int),
          op ≠ .CreateOperation → d.name = some name →
          d.project_id = some projectID → projectID ≠ 0 →
          d.project_access_token_scopes = none → d.ttl = some ttl → d.max_ttl = none →
          (r.MaxTTL = 0 ∨ secondsToDuration ttl ≤ r.MaxTTL) →
          (pathRolesWrite op s d).1 = .ok none
            ∧ getRole (pathRolesWrite op s d).2 name
                = .ok (some { Name := name, ProjectID := projectID,
                              ProjectAccessTokenScopes := r.ProjectAccessTokenScopes,
                              TTL := secondsToDuration ttl, MaxTTL := r.MaxTTL })) := by
  have hne : name ≠ "" := by
    intro h
    rw [h] at hget
    simp [getRole] at hget
  exact ⟨fun op d hname hpid => pathRolesWrite_missing_project_id op s d name hname hne hpid,
    fun op d projectID ttl hop hname hpid hp0 hscopes httl hmax hvalid =>
      pathRolesWrite_update_ttl_merge op s d name projectID ttl r hop hname hne hpid hp0
        hscopes httl hmax hget hvalid⟩

/-- Witness of C3 (amended): with `r1` stored, an update that supplies only
ttl 1800 s is answered "missing project ID" and changes nothing, and an update
with project_id 42 and ttl 1800 s stores ttl 1800 s and keeps scope `read` and
max_ttl 7200 s. -/
theorem pathRolesWrite_update_ttl_keeps_other_fields_witness :
    pathRolesWrite .UpdateOperation sampleRoleStorage { name := some "r1", ttl := some 1800 }
        = (.ok (some (ErrorResponse "missing project ID")), sampleRoleStorage)
      ∧ (pathRolesWrite .UpdateOperation sampleRoleStorage
          { name := some "r1", project_id := some 42, ttl := some 1800 }).1 = .ok none
      ∧ getRole (pathRolesWrite .UpdateOperation sampleRoleStorage
          { name := some "r1", project_id := some 42, ttl := some 1800 }).2 "r1"
          = .ok (some { Name := "r1", ProjectID := 42,
                        ProjectAccessTokenScopes := sampleRole.ProjectAccessTokenScopes,
                        TTL := secondsToDuration 1800, MaxTTL := sampleRole.MaxTTL }) :=
  ⟨(pathRolesWrite_update_ttl_keeps_other_fields sampleRoleStorage "r1" sampleRole rfl).1
      .UpdateOperation { name := some "r1", ttl := some 1800 } rfl (Or.inl rfl),
   (pathRolesWrite_update_ttl_keeps_other_fields sampleRoleStorage "r1" sampleRole rfl).2
      .UpdateOperation { name := some "r1", project_id := some 42, ttl := some 1800 } 42 1800
      (by decide) rfl rfl (by decide) rfl rfl rfl (Or.inr (by decide))⟩

/-- C3 (counterexample). With `r1` stored (scope `read`, ttl 3600 s, max_ttl
7200 s), a write that supplies only ttl = 1800 is answered "missing project ID"
and leaves the storage as it was, as an update and as a create operation alike,
so the stored ttl stays 3600 s; and a create operation that supplies project_id
and ttl only stores the empty scope and max_ttl 0. -/
theorem pathRolesWrite_only_ttl_counterexample :
    pathRolesWrite .UpdateOperation sampleRoleStorage { name := some "r1", ttl := some 1800 }
        = (.ok (some (ErrorResponse "missing project ID")), sampleRoleStorage)
      ∧ pathRolesWrite .CreateOperation sampleRoleStorage { name := some "r1", ttl := some 1800 }
        = (.ok (some (ErrorResponse "missing project ID")), sampleRoleStorage)
      ∧ getRole sampleRoleStorage "r1" = .ok (some sampleRole)
      ∧ sampleRole.TTL ≠ secondsToDuration 1800
      ∧ getRole (pathRolesWrite .CreateOperation sampleRoleStorage
          { name := some "r1", project_id := some 42, ttl := some 1800 }).2 "r1"
          = .ok (some { Name := "r1", ProjectID := 42, ProjectAccessTokenScopes := "",
                        TTL := 1800 * Second, MaxTTL := 0 }) :=
  ⟨rfl, rfl, rfl, by decide, rfl⟩

/-- The existence check of the role path looks up the key `roles/`, which no
role write creates: where it answers false before a role write, it answers
false after it. -/
theorem PathRolesExistenceCheck_after_write (op : Operation) (s : Storage) (d : FieldData)
    (h : PathRolesExistenceCheck s = .ok false) :
    PathRolesExistenceCheck (pathRolesWrite op s d).2 = .ok false := by
  by_cases hn : d.name.getD "" = ""
  · simpa [pathRolesWrite, hn] using h
  · by_cases hp : d.project_id.getD 0 = 0
    · simpa [pathRolesWrite, hn, hp] using h
    · cases hget : getRole s (d.name.getD "") with
      | error e => simpa [pathRolesWrite, hn, hp, hget] using h
      | ok stored =>
        simp only [pathRolesWrite, hn, hp, hget, if_false]
        split
        · exact h
        · simp only [setRole, StorageEntryJSONRole, Storage.Put]
          simp only [PathRolesExistenceCheck] at h ⊢
          rw [Storage.Get_Put_other s _ pathRoleDef (Ne.symm (roleKey_ne_pathRoleDef _ hn))]
          exact h
/-! ## Issue -/

/-- C4 (what the code does instead). For a non-empty role name with no stored
record, whenever a client is obtainable and a UUID is generated, issue stops
with a nil pointer dereference on the absent role instead of returning a
not-found error; no request reaches the remote service. -/
theorem pathProjectAccessTokenRead_absent_role_faults (env : Env) (b : RollbarBackend)
    (s : Storage) (d : FieldData)
    (name uuid : String) (client : rollbarClient)
    (hname : d.name = some name) (hne : name ≠ "")
    (habsent : s.Get (pathRoleDef ++ name) = .ok none)
    (hclient : (b.getClient s).1 = .ok client)
    (huuid : env.GenerateUUID = .ok uuid) :
    (pathProjectAccessTokenRead env b s d).1 = .fault nilPointerDereference
      ∧ (pathProjectAccessTokenRead env b s d).2.2 = [] := by
  have hget : getRole s name = .ok none := by simp [getRole, hne, habsent]
  rcases hgc : b.getClient s with ⟨res, b'⟩
  rw [hgc] at hclient
  simp only at hclient
  subst hclient
  simp [pathProjectAccessTokenRead, hname, hget, hgc, huuid]

/-- Witness of C4 at the failing input: a valid config is stored, no role
`ghost` exists, and issue for `ghost` faults. -/
theorem pathProjectAccessTokenRead_absent_role_faults_witness :
    (pathProjectAccessTokenRead sampleEnv {} sampleConfigStorage { name := some "ghost" }).1
        = .fault nilPointerDereference
      ∧ (pathProjectAccessTokenRead sampleEnv {} sampleConfigStorage { name := some "ghost" }).2.2
        = [] :=
  pathProjectAccessTokenRead_absent_role_faults sampleEnv {} sampleConfigStorage { name := some "ghost" } "ghost" "u1" sampleClient
    rfl (by decide) rfl rfl rfl

/-- C5 (amended). For a stored role `r`, an obtainable client and a non-empty
token `t` returned without error by `CreateProjectAccessToken(r.scopes,
r.project_id, "<roleName>-<uuid>")`, issue returns a secret whose data is
`project_access_token = t`, whose internal data is exactly
`project_access_token = t, role = r.Name, secret_type =
rollbar_project_access_token` (the third key is set by the library's
`Secret.Response`), and whose TTL (resp. MaxTTL) is the role's when that is
positive and the default of the secret otherwise. -/
theorem pathProjectAccessTokenRead_success (env : Env) (b b' : RollbarBackend) (s : Storage)
    (d : FieldData)
    (name uuid t : String) (r : RollbarRoleEntry) (client : rollbarClient)
    (sent : List HttpRequest)
    (hname : d.name = some name)
    (hrole : getRole s name = .ok (some r))
    (hclient : b.getClient s = (.ok client, b'))
    (huuid : env.GenerateUUID = .ok uuid)
    (hcreate : client.CreateProjectAccessToken env r.ProjectAccessTokenScopes r.ProjectID
      (name ++ "-" ++ uuid) = (.ok t, sent))
    (ht : t ≠ "") :
    pathProjectAccessTokenRead env b s d
      = (.ok (some
          { Data := [("project_access_token", .str t)],
            Secret := some
              { InternalData :=
                  [("project_access_token", .str t), ("role", .str r.Name),
                   ("secret_type", .str rollbarProjectAccessTokenType)],
                TTL := if r.TTL > 0 then r.TTL else rollbarProjectAccessToken.DefaultDuration,
                MaxTTL := if r.MaxTTL > 0 then r.MaxTTL else 0 } }), b', sent) := by
  have hkeys :
      ([("project_access_token", Value.str t), ("role", Value.str r.Name)].filter
          (fun kv => kv.1 != "secret_type"))
        = [("project_access_token", Value.str t), ("role", Value.str r.Name)] := by
    simp [List.filter]
  simp only [pathProjectAccessTokenRead, hname, Option.getD_some, hrole, hclient, huuid,
    createProjectAccessToken, hcreate, ht, if_false, FrameworkSecret.Response, hkeys]
  by_cases h1 : r.TTL > 0 <;> by_cases h2 : r.MaxTTL > 0 <;>
    simp [h1, h2, rollbarProjectAccessToken]

/-- Witness of C5 (amended): role `r1` (project 42, scope `read`, ttl 0,
max_ttl 0) and a service returning `abc123` give internal data
`project_access_token = abc123, role = r1, secret_type =
rollbar_project_access_token` with TTL and MaxTTL at the default; the single
request sent is the POST for `createToken("read", 42, "r1-u1")`. -/
theorem pathProjectAccessTokenRead_success_witness :
    pathProjectAccessTokenRead sampleEnv {} zeroTTLStorage { name := some "r1" }
      = (.ok (some
          { Data := [("project_access_token", .str "abc123")],
            Secret := some
              { InternalData :=
                  [("project_access_token", .str "abc123"), ("role", .str zeroTTLRole.Name),
                   ("secret_type", .str rollbarProjectAccessTokenType)],
                TTL := if zeroTTLRole.TTL > 0 then zeroTTLRole.TTL else rollbarProjectAccessToken.DefaultDuration,
                MaxTTL := if zeroTTLRole.MaxTTL > 0 then zeroTTLRole.MaxTTL else 0 } }),
          { client := some sampleClient },
          [{ method := "POST", url := "https://api.rollbar.com/api/1/project/42/access_tokens",
             header := [("accept", "application/json"), ("content-type", "application/json"),
                        ("X-Rollbar-Access-Token", "tok")],
             body := some "\x7b\"status\":\"enabled\",\"scopes\":[\"read\"],\"name\":\"r1-u1\"\x7d" }]) :=
  pathProjectAccessTokenRead_success sampleEnv {} { client := some sampleClient } zeroTTLStorage { name := some "r1" } "r1" "u1"
    "abc123" zeroTTLRole sampleClient _ rfl rfl rfl rfl rfl (by decide)

/-- C5 (counterexample). For role `r1` (project 42, scope `read`, ttl 0,
max_ttl 0) and a service returning `abc123`, the internal data of the secret
that issue returns holds the key `secret_type` next to `project_access_token`
and `role`: it has three entries and is not the two-entry map of the claim. -/
theorem pathProjectAccessTokenRead_internal_data_counterexample :
    (pathProjectAccessTokenRead sampleEnv {} zeroTTLStorage { name := some "r1" }).1
        = .ok (some
            { Data := [("project_access_token", .str "abc123")],
              Secret := some
                { InternalData :=
                    [("project_access_token", .str "abc123"), ("role", .str "r1"),
                     ("secret_type", .str "rollbar_project_access_token")],
                  TTL := 0, MaxTTL := 0 } })
      ∧ ([("project_access_token", Value.str "abc123"), ("role", Value.str "r1"),
          ("secret_type", Value.str "rollbar_project_access_token")]
          ≠ [("project_access_token", Value.str "abc123"), ("role", Value.str "r1")])
      ∧ List.lookup "secret_type"
          [("project_access_token", Value.str "abc123"), ("role", Value.str "r1"),
           ("secret_type", Value.str "rollbar_project_access_token")]
          = some (Value.str "rollbar_project_access_token")
      ∧ List.lookup "secret_type"
          [("project_access_token", Value.str "abc123"), ("role", Value.str "r1")] = none :=
  ⟨rfl, by decide, rfl, rfl⟩

theorem getConfig_after_delete (s : Storage) :
    getConfig (s.filter (fun e => e.Key != configStoragePath)) = .ok none := by
  simp [getConfig, Storage.Get_filter_same]

theorem getRole_after_config_delete (s : Storage) (name : String) :
    getRole (s.filter (fun e => e.Key != configStoragePath)) name = getRole s name := by
  simp only [getRole]
  rw [Storage.Get_filter_other s configStoragePath (pathRoleDef ++ name) (roleKey_ne_configKey name)]

/-- C6. For every backend state, cached client included, and every stored
role: config delete succeeds, and issue for that role in the state it leaves
fails with "error getting client: client account access token is not defined",
leaves no client cached and sends no request to the remote service. -/
theorem issue_after_pathConfigDelete_fails (env : Env) (b : RollbarBackend) (s : Storage)
    (d : FieldData)
    (name : String) (r : RollbarRoleEntry)
    (hname : d.name = some name)
    (hrole : getRole s name = .ok (some r)) :
    (pathConfigDelete b s).1 = .ok none
      ∧ pathProjectAccessTokenRead env (pathConfigDelete b s).2.1 (pathConfigDelete b s).2.2 d
          = (.error "error getting client: client account access token is not defined",
              { client := none }, []) := by
  simp only [pathConfigDelete, Storage.Delete, true_and]
  simp [pathProjectAccessTokenRead, hname, getRole_after_config_delete, hrole,
    RollbarBackend.getClient, RollbarBackend.reset, getConfig_after_delete, NewClient]


/-- Witness of C6: with a client cached from an earlier config, deleting the
config and issuing for `r1` fails with the configuration error. -/
theorem issue_after_pathConfigDelete_fails_witness :
    (pathConfigDelete { client := some staleClient } sampleStorage).1 = .ok none
      ∧ pathProjectAccessTokenRead sampleEnv
          (pathConfigDelete { client := some staleClient } sampleStorage).2.1
          (pathConfigDelete { client := some staleClient } sampleStorage).2.2
          { name := some "r1" }
          = (.error "error getting client: client account access token is not defined",
              { client := none }, []) :=
  issue_after_pathConfigDelete_fails sampleEnv { client := some staleClient } sampleStorage
    { name := some "r1" } "r1" sampleRole rfl rfl

/-! ## Cache coherence -/

theorem CacheCoherent_of_no_client (st : BackendState) (h : st.backend.client = none) :
    CacheCoherent st := by
  intro client hc
  rw [h] at hc
  cases hc

/-- A config write either changes nothing or leaves no client cached. -/
theorem pathConfigWrite_backend (op : Operation) (b : RollbarBackend) (s : Storage)
    (d : FieldData) :
    ((pathConfigWrite op b s d).2.1 = b ∧ (pathConfigWrite op b s d).2.2 = s)
      ∨ (pathConfigWrite op b s d).2.1.client = none := by
  cases hcfg : getConfig s with
  | error e => left; simp [pathConfigWrite, hcfg]
  | ok cfg =>
    by_cases hop : op = Operation.CreateOperation <;>
      cases cfg <;> cases htok : d.account_access_token <;>
      simp [pathConfigWrite, hcfg, hop, htok, StorageEntryJSONConfig, Storage.Put,
        RollbarBackend.reset]

/-- The state left by `getClient` is coherent when the state before is. -/
theorem getClient_coherent (st : BackendState) (h : CacheCoherent st) :
    CacheCoherent { st with backend := (st.backend.getClient st.storage).2 } := by
  intro client hc
  simp only [RollbarBackend.getClient] at hc
  cases hb : st.backend.client with
  | some c =>
    rw [hb] at hc
    simp only at hc
    rw [hb] at hc
    cases hc
    exact h client hb
  | none =>
    rw [hb] at hc
    simp only at hc
    cases hcfg : getConfig st.storage with
    | error e =>
      rw [hcfg] at hc
      simp only at hc
      rw [hb] at hc
      cases hc
    | ok cfg =>
      rw [hcfg] at hc
      cases cfg with
      | none =>
        simp [NewClient] at hc
      | some c =>
        simp only [NewClient] at hc
        by_cases htok : c.AccountAccessToken = ""
        · simp [htok] at hc
        · simp only [htok, if_false, Option.some.injEq] at hc
          subst hc
          exact ⟨htok, c, rfl, rfl, by simp [NewClient, htok]⟩

theorem step_coherent (st : BackendState) (op : CacheOp) (h : CacheCoherent st) :
    CacheCoherent (st.step op) := by
  cases op with
  | configWrite o d =>
    rcases pathConfigWrite_backend o st.backend st.storage d with ⟨hb, hs⟩ | hnone
    · have : st.step (.configWrite o d) = st := by
        cases st
        simp only [BackendState.step] at hb hs ⊢
        simp [hb, hs]
      rw [this]; exact h
    · exact CacheCoherent_of_no_client _ hnone
  | configDelete =>
    exact CacheCoherent_of_no_client _ rfl
  | invalidate key =>
    by_cases hk : key = "config"
    · exact CacheCoherent_of_no_client _ (by simp [BackendState.step, RollbarBackend.invalidate, hk, RollbarBackend.reset])
    · have : st.step (.invalidate key) = st := by
        cases st
        simp [BackendState.step, RollbarBackend.invalidate, hk]
      rw [this]; exact h
  | getClient => exact getClient_coherent st h

theorem run_coherent (ops : List CacheOp) (st : BackendState) (h : CacheCoherent st) :
    CacheCoherent (st.run ops) := by
  induction ops generalizing st with
  | nil => exact h
  | cons op rest ih => exact ih (st.step op) (step_coherent st op h)

/-- A client returned by `getClient` is the one cached afterwards. -/
theorem getClient_ok_cached (st : BackendState) (client : rollbarClient)
    (hok : (st.backend.getClient st.storage).1 = .ok client) :
    (st.backend.getClient st.storage).2.client = some client := by
  simp only [RollbarBackend.getClient] at hok ⊢
  cases hb : st.backend.client with
  | some c =>
    rw [hb] at hok
    simp only [hb] at hok ⊢
    cases hok; rfl
  | none =>
    simp only [hb] at hok ⊢
    cases hcfg : getConfig st.storage with
    | error e => simp [hcfg] at hok
    | ok cfg =>
      simp only [hcfg] at hok ⊢
      split at hok <;> simp_all

/-- C7. In every state reached from an initial state (any storage, no cached
client) by a sequence of config writes, config deletes, `invalidate` calls and
`getClient` calls, the cached client is absent or carries a non-empty account
credential equal to the `account_access_token` of the stored config; and a
client returned by `getClient` in such a state is the one `NewClient` builds
from the stored config. -/
theorem cache_coherent_in_every_run (s : Storage) (ops : List CacheOp) :
    CacheCoherent ((BackendState.initial s).run ops)
      ∧ ∀ client,
          (((BackendState.initial s).run ops).backend.getClient
              ((BackendState.initial s).run ops).storage).1 = .ok client →
          client.accountAccessToken ≠ ""
            ∧ ∃ config, getConfig ((BackendState.initial s).run ops).storage = .ok (some config)
                ∧ config.AccountAccessToken = client.accountAccessToken
                ∧ NewClient (some config) = .ok client := by
  have hrun := run_coherent ops (BackendState.initial s) (CacheCoherent_of_no_client _ rfl)
  refine ⟨hrun, fun client hok => ?_⟩
  have hafter := getClient_coherent _ hrun
  exact hafter client (getClient_ok_cached _ client hok)


/-- Witness of C7: write a config, fetch the client, overwrite the config,
fetch again; the client cached at the end carries the token written last. -/
theorem cache_coherent_in_every_run_witness :
    ((BackendState.initial []).run
        [.configWrite .CreateOperation { account_access_token := some "tok" }, .getClient,
         .configWrite .UpdateOperation { account_access_token := some "new" },
         .getClient]).backend.client
        = some { timeout := 10 * Second, hostURL := hostURL, accountAccessToken := "new" }
      ∧ CacheCoherent ((BackendState.initial []).run
        [.configWrite .CreateOperation { account_access_token := some "tok" }, .getClient,
         .configWrite .UpdateOperation { account_access_token := some "new" }, .getClient]) :=
  ⟨by decide,
    (cache_coherent_in_every_run []
      [.configWrite .CreateOperation { account_access_token := some "tok" }, .getClient,
       .configWrite .UpdateOperation { account_access_token := some "new" }, .getClient]).1⟩

/-! ## Renew and revoke -/

/-- C8 (amended). For every leased secret whose internal data names a role
stored now, renew returns that same secret with TTL (resp. MaxTTL) equal to the
role's current ttl (resp. max_ttl) when that value is positive, and equal to
the value the secret already carried when the role's value is not positive. -/
theorem projectAccessTokenRenew_applies_positive_role_policy (s : Storage) (secret : Secret)
    (n : String) (r : RollbarRoleEntry)
    (hdata : secret.InternalData.lookup "role" = some (.str n))
    (hrole : getRole s n = .ok (some r)) :
    projectAccessTokenRenew s secret
      = .ok (some
          { Secret := some
              { secret with
                TTL := if r.TTL > 0 then r.TTL else secret.TTL,
                MaxTTL := if r.MaxTTL > 0 then r.MaxTTL else secret.MaxTTL } }) := by
  simp only [projectAccessTokenRenew, hdata, hrole]
  by_cases h1 : r.TTL > 0 <;> by_cases h2 : r.MaxTTL > 0 <;> simp [h1, h2]

/-- Witness of C8 (amended): after the ttl of `r1` is changed from 3600 s to
1800 s by a role update, the next renew of a secret leased for 3600 s answers
with TTL 1800 s. -/
theorem projectAccessTokenRenew_applies_positive_role_policy_witness :
    projectAccessTokenRenew
        (pathRolesWrite .UpdateOperation sampleStorage
          { name := some "r1", project_id := some 42, ttl := some 1800 }).2 sampleSecret
      = .ok (some
          { Secret := some
              { sampleSecret with
                TTL := if 1800 * Second > 0 then 1800 * Second else sampleSecret.TTL,
                MaxTTL :=
                  if 7200 * Second > 0 then 7200 * Second else sampleSecret.MaxTTL } }) :=
  projectAccessTokenRenew_applies_positive_role_policy _ sampleSecret "r1"
    { Name := "r1", ProjectID := 42, ProjectAccessTokenScopes := "read",
      TTL := 1800 * Second, MaxTTL := 7200 * Second } rfl rfl

/-- C8 (counterexample). Role `r1` is stored with ttl 0 and max_ttl 0; a secret
naming `r1` and carrying TTL 3600 s and MaxTTL 7200 s is renewed unchanged, so
its TTL and MaxTTL differ from the ttl and max_ttl stored on the role. -/
theorem projectAccessTokenRenew_zero_ttl_counterexample :
    getRole zeroTTLStorage "r1" = .ok (some zeroTTLRole)
      ∧ sampleSecret.InternalData.lookup "role" = some (.str "r1")
      ∧ projectAccessTokenRenew zeroTTLStorage sampleSecret
          = .ok (some { Secret := some sampleSecret })
      ∧ sampleSecret.TTL ≠ zeroTTLRole.TTL
      ∧ sampleSecret.MaxTTL ≠ zeroTTLRole.MaxTTL :=
  ⟨rfl, rfl, rfl, by decide, by decide⟩

/-- Where the claim on revoke holds. For a secret whose internal data holds
`project_access_token = t` and `role = n`, with role `n` stored (project id
`p`), a client obtainable and the URL of the request accepted by
`http.NewRequest`, revoke hands exactly one request to the remote service, the
DELETE of `/project/p/access_token/t` carrying the account credential, which
is the request of `deleteProjectAccessToken(p, t)`; revoke succeeds exactly
when that call succeeds; an error of that call is returned with its text after
the revoke label, in particular the status and body of a non-200 answer. -/
theorem projectAccessTokenRevoke_single_delete_call (env : Env) (b b' : RollbarBackend)
    (s : Storage) (secret : Secret)
    (t n : String) (r : RollbarRoleEntry) (client : rollbarClient)
    (hpat : secret.InternalData.lookup "project_access_token" = some (.str t))
    (hdata : secret.InternalData.lookup "role" = some (.str n))
    (hrole : getRole s n = .ok (some r))
    (hclient : b.getClient s = (.ok client, b'))
    (hurl : urlParseError
      (client.hostURL ++ "/project/" ++ toString r.ProjectID ++ "/access_token/" ++ t) = none) :
    (projectAccessTokenRevoke env b s secret).2.2
        = [{ method := "DELETE",
             url := client.hostURL ++ "/project/" ++ toString r.ProjectID ++ "/access_token/" ++ t,
             header := [("accept", "application/json"),
                        ("X-Rollbar-Access-Token", client.accountAccessToken)],
             body := none }]
      ∧ (projectAccessTokenRevoke env b s secret).2.2
          = (client.deleteProjectAccessToken env r.ProjectID t).2
      ∧ ((projectAccessTokenRevoke env b s secret).1 = .ok none
          ↔ (client.deleteProjectAccessToken env r.ProjectID t).1 = .ok ())
      ∧ (∀ err, (client.deleteProjectAccessToken env r.ProjectID t).1 = .error err →
          (projectAccessTokenRevoke env b s secret).1
            = .error ("error revoking project access token: " ++ err))
      ∧ (∀ status body, status ≠ 200 →
          env.Do
            { method := "DELETE",
              url := client.hostURL ++ "/project/" ++ toString r.ProjectID ++ "/access_token/" ++ t,
              header := [("accept", "application/json"),
                         ("X-Rollbar-Access-Token", client.accountAccessToken)],
              body := none } = .ok { StatusCode := status, Body := .ok body } →
          (projectAccessTokenRevoke env b s secret).1
            = .error ("error revoking project access token: "
                ++ ("status: " ++ toString status ++ ", body: " ++ body))) := by
  have hnew : NewRequest "DELETE"
      (client.hostURL ++ "/project/" ++ toString r.ProjectID ++ "/access_token/" ++ t) none
      = .ok { method := "DELETE",
              url := client.hostURL ++ "/project/" ++ toString r.ProjectID
                ++ "/access_token/" ++ t,
              body := none } := by
    simp [NewRequest, hurl]
  have hreq : ((({ method := "DELETE",
                   url := client.hostURL ++ "/project/" ++ toString r.ProjectID
                     ++ "/access_token/" ++ t,
                   body := none } : HttpRequest).HeaderAdd "accept" "application/json").HeaderSet
        "X-Rollbar-Access-Token" client.accountAccessToken)
      = { method := "DELETE",
          url := client.hostURL ++ "/project/" ++ toString r.ProjectID ++ "/access_token/" ++ t,
          header := [("accept", "application/json"),
                     ("X-Rollbar-Access-Token", client.accountAccessToken)],
          body := none } := by
    simp [HttpRequest.HeaderAdd, HttpRequest.HeaderSet]
  simp only [projectAccessTokenRevoke, hclient, hpat, hdata, hrole, deleteProjectAccessToken,
    rollbarClient.deleteProjectAccessToken, hnew, rollbarClient.DoRequest, hreq]
  cases hdo : env.Do
      { method := "DELETE",
        url := client.hostURL ++ "/project/" ++ toString r.ProjectID ++ "/access_token/" ++ t,
        header := [("accept", "application/json"),
                   ("X-Rollbar-Access-Token", client.accountAccessToken)],
        body := none } with
  | error e => simp
  | ok res =>
    rcases res with ⟨status, body⟩
    cases body with
    | error e => simp
    | ok bdy =>
      by_cases hst : status = 200
      · simp only [hst, ne_eq, not_true_eq_false, if_false, true_and, and_true]
        refine ⟨by simp, fun st bd hne heq => ?_⟩
        simp only [Except.ok.injEq, HttpResponse.mk.injEq] at heq
        exact absurd heq.1.symm hne
      · simp only [ne_eq, hst, not_false_eq_true, if_true, true_and]
        refine ⟨by simp, by simp, fun st bd _ heq => ?_⟩
        simp only [Except.ok.injEq, HttpResponse.mk.injEq] at heq
        rw [← heq.1, ← heq.2]

/-- Internal data `project_access_token = abc123, role = r1` with
`r1.ProjectID = 42` sends the single DELETE for project 42 and token `abc123`;
revoke succeeds on status 200 and reports status 404 with the body. -/
theorem projectAccessTokenRevoke_single_delete_call_sample :
    (projectAccessTokenRevoke sampleEnv {} sampleStorage sampleSecret).2.2
        = [{ method := "DELETE",
             url := sampleClient.hostURL ++ "/project/" ++ toString sampleRole.ProjectID
               ++ "/access_token/" ++ "abc123",
             header := [("accept", "application/json"),
                        ("X-Rollbar-Access-Token", sampleClient.accountAccessToken)],
             body := none }]
      ∧ (projectAccessTokenRevoke sampleEnv {} sampleStorage sampleSecret).1 = .ok none
      ∧ (projectAccessTokenRevoke failingEnv {} sampleStorage sampleSecret).1
          = .error ("error revoking project access token: "
              ++ ("status: " ++ toString (404 : Int) ++ ", body: " ++ "not found")) :=
  ⟨(projectAccessTokenRevoke_single_delete_call sampleEnv {} { client := some sampleClient }
      sampleStorage sampleSecret "abc123" "r1" sampleRole sampleClient rfl rfl rfl rfl rfl).1,
   (projectAccessTokenRevoke_single_delete_call sampleEnv {} { client := some sampleClient }
      sampleStorage sampleSecret "abc123" "r1" sampleRole sampleClient
      rfl rfl rfl rfl rfl).2.2.1.mpr rfl,
   (projectAccessTokenRevoke_single_delete_call failingEnv {} { client := some sampleClient }
      sampleStorage sampleSecret "abc123" "r1" sampleRole sampleClient
      rfl rfl rfl rfl rfl).2.2.2.2 404 "not found" (by decide) rfl⟩

/-- C9 (what the code does instead). For a secret whose internal data holds
`project_access_token = t` and `role = n`, with role `n` stored (project id
`p`) and a client obtainable: when `http.NewRequest` refuses the URL
`/project/p/access_token/t`, `deleteProjectAccessToken` has discarded the
error, `req` is nil, and revoke stops with a nil pointer dereference on
`req.Header.Add`; no request reaches the remote service and no error is
returned. -/
theorem projectAccessTokenRevoke_refused_url_faults (env : Env) (b b' : RollbarBackend)
    (s : Storage) (secret : Secret)
    (t n err : String) (r : RollbarRoleEntry) (client : rollbarClient)
    (hpat : secret.InternalData.lookup "project_access_token" = some (.str t))
    (hdata : secret.InternalData.lookup "role" = some (.str n))
    (hrole : getRole s n = .ok (some r))
    (hclient : b.getClient s = (.ok client, b'))
    (hurl : urlParseError
      (client.hostURL ++ "/project/" ++ toString r.ProjectID ++ "/access_token/" ++ t)
        = some err) :
    projectAccessTokenRevoke env b s secret = (.fault nilPointerDereference, b', []) := by
  simp [projectAccessTokenRevoke, hclient, hpat, hdata, hrole, deleteProjectAccessToken,
    rollbarClient.deleteProjectAccessToken, NewRequest, hurl]

/-- Witness of C9 at the failing input: role `r1` (project 42) and a config are
stored, and the secret holds the token `%zz`, whose URL `url.Parse` refuses
for the incomplete escape. -/
theorem projectAccessTokenRevoke_refused_url_faults_witness :
    projectAccessTokenRevoke sampleEnv {} sampleStorage
        { InternalData := [("project_access_token", .str "%zz"), ("role", .str "r1")] }
      = (.fault nilPointerDereference, { client := some sampleClient }, []) :=
  projectAccessTokenRevoke_refused_url_faults sampleEnv {} { client := some sampleClient }
    sampleStorage { InternalData := [("project_access_token", .str "%zz"), ("role", .str "r1")] }
    "%zz" "r1"
    "parse \"https://api.rollbar.com/api/1/project/42/access_token/%zz\": invalid URL escape \"%zz\""
    sampleRole sampleClient rfl rfl rfl rfl rfl

/-- C10 (what the code does instead). For a secret naming a role with no
stored record, with a client obtainable, renew returns the error
"error retrieving role: role is nil", while revoke stops with a nil pointer
dereference on the absent role; revoke sends no request. -/
theorem projectAccessTokenRevoke_absent_role_faults (env : Env) (b b' : RollbarBackend)
    (s : Storage) (secret : Secret)
    (t n : String) (client : rollbarClient)
    (hne : n ≠ "")
    (hpat : secret.InternalData.lookup "project_access_token" = some (.str t))
    (hdata : secret.InternalData.lookup "role" = some (.str n))
    (habsent : s.Get (pathRoleDef ++ n) = .ok none)
    (hclient : b.getClient s = (.ok client, b')) :
    projectAccessTokenRenew s secret = .error "error retrieving role: role is nil"
      ∧ projectAccessTokenRevoke env b s secret = (.fault nilPointerDereference, b', []) := by
  have hget : getRole s n = .ok none := by simp [getRole, hne, habsent]
  constructor
  · simp [projectAccessTokenRenew, hdata, hget]
  · simp [projectAccessTokenRevoke, hclient, hpat, hdata, hget]

/-- Witness of C10 at the failing input: a valid config is stored, role `r1`
is not, and the secret names `r1`. -/
theorem projectAccessTokenRevoke_absent_role_faults_witness :
    projectAccessTokenRenew sampleConfigStorage sampleSecret
        = .error "error retrieving role: role is nil"
      ∧ projectAccessTokenRevoke sampleEnv {} sampleConfigStorage sampleSecret
        = (.fault nilPointerDereference, { client := some sampleClient }, []) :=
  projectAccessTokenRevoke_absent_role_faults sampleEnv {} { client := some sampleClient } sampleConfigStorage sampleSecret
    "abc123" "r1" sampleClient (by decide) rfl rfl rfl rfl

/-! ## Config read -/

/-- C11 (what the code does instead). When no config record is stored,
`getConfig` reports the absence without error, and `pathConfigRead` then reads
`config.AccountAccessToken` through the nil config and stops with a nil pointer
dereference instead of completing. -/
theorem pathConfigRead_absent_config_faults (s : Storage)
    (habsent : s.Get configStoragePath = .ok none) :
    getConfig s = .ok none ∧ pathConfigRead s = .fault nilPointerDereference := by
  have hcfg : getConfig s = .ok none := by simp [getConfig, habsent]
  exact ⟨hcfg, by simp [pathConfigRead, hcfg]⟩

/-- Witness of C11 at the failing input: a storage that holds a role and no
config. -/
theorem pathConfigRead_absent_config_faults_witness :
    getConfig sampleRoleStorage = .ok none
      ∧ pathConfigRead sampleRoleStorage = .fault nilPointerDereference :=
  pathConfigRead_absent_config_faults sampleRoleStorage rfl

/-! ## Wire contract of token creation -/

/-- For every scope, project id and token name whose URL `http.NewRequest`
accepts, `CreateProjectAccessToken` hands exactly one request to the
transport: a POST to `<hostURL>/project/<id>/access_tokens` whose body is the
text `{"status":"enabled","scopes":["` scope `"],"name":"` name `"}`. -/
theorem CreateProjectAccessToken_sends_post (r : rollbarClient) (env : Env) (scopes : String)
    (projectID : Int) (name : String)
    (hurl : urlParseError
      (r.hostURL ++ "/project/" ++ toString projectID ++ "/access_tokens") = none) :
    (r.CreateProjectAccessToken env scopes projectID name).2
      = [{ method := "POST",
           url := r.hostURL ++ "/project/" ++ toString projectID ++ "/access_tokens",
           header := [("accept", "application/json"), ("content-type", "application/json"),
                      ("X-Rollbar-Access-Token", r.accountAccessToken)],
           body := some ("\x7b\"status\":\"enabled\",\"scopes\":[\"" ++ scopes
             ++ "\"],\"name\":\"" ++ name ++ "\"\x7d") }] := by
  have hnew : NewRequest "POST"
      (r.hostURL ++ "/project/" ++ toString projectID ++ "/access_tokens")
      (some ("\x7b\"status\":\"enabled\",\"scopes\":[\"" ++ scopes
             ++ "\"],\"name\":\"" ++ name ++ "\"\x7d"))
      = .ok { method := "POST",
              url := r.hostURL ++ "/project/" ++ toString projectID ++ "/access_tokens",
              body := some ("\x7b\"status\":\"enabled\",\"scopes\":[\"" ++ scopes
                ++ "\"],\"name\":\"" ++ name ++ "\"\x7d") } := by
    simp [NewRequest, hurl]
  have hreq : (((({ method := "POST",
                    url := r.hostURL ++ "/project/" ++ toString projectID ++ "/access_tokens",
                    body := some ("\x7b\"status\":\"enabled\",\"scopes\":[\"" ++ scopes
                      ++ "\"],\"name\":\"" ++ name ++ "\"\x7d") } : HttpRequest).HeaderAdd
          "accept" "application/json").HeaderAdd "content-type" "application/json").HeaderSet
        "X-Rollbar-Access-Token" r.accountAccessToken)
      = { method := "POST",
          url := r.hostURL ++ "/project/" ++ toString projectID ++ "/access_tokens",
          header := [("accept", "application/json"), ("content-type", "application/json"),
                     ("X-Rollbar-Access-Token", r.accountAccessToken)],
          body := some ("\x7b\"status\":\"enabled\",\"scopes\":[\"" ++ scopes
             ++ "\"],\"name\":\"" ++ name ++ "\"\x7d") } := by
    simp [HttpRequest.HeaderAdd, HttpRequest.HeaderSet]
  simp only [rollbarClient.CreateProjectAccessToken, hnew, rollbarClient.DoRequest, hreq]
  cases env.Do
      { method := "POST",
        url := r.hostURL ++ "/project/" ++ toString projectID ++ "/access_tokens",
        header := [("accept", "application/json"), ("content-type", "application/json"),
                   ("X-Rollbar-Access-Token", r.accountAccessToken)],
        body := some ("\x7b\"status\":\"enabled\",\"scopes\":[\"" ++ scopes
             ++ "\"],\"name\":\"" ++ name ++ "\"\x7d") } with
  | error e => rfl
  | ok res =>
    rcases res with ⟨status, body⟩
    cases body with
    | error e => rfl
    | ok bdy =>
      by_cases hst : status = 200
      · simp only [hst, ne_eq, not_true_eq_false, if_false]
        cases env.UnmarshalAccessToken bdy <;> rfl
      · simp only [ne_eq, hst, not_false_eq_true, if_true]

/-- For every scope, project id and token name, a client under `hostURL` (as
`NewClient` builds it) hands exactly one request to the transport: the POST to
`<hostURL>/project/<id>/access_tokens` with the concatenated body. -/
theorem CreateProjectAccessToken_sends_post_under_hostURL (r : rollbarClient) (env : Env)
    (scopes : String) (projectID : Int) (name : String) (hhost : r.hostURL = hostURL) :
    (r.CreateProjectAccessToken env scopes projectID name).2
      = [{ method := "POST",
           url := hostURL ++ "/project/" ++ toString projectID ++ "/access_tokens",
           header := [("accept", "application/json"), ("content-type", "application/json"),
                      ("X-Rollbar-Access-Token", r.accountAccessToken)],
           body := some ("\x7b\"status\":\"enabled\",\"scopes\":[\"" ++ scopes
             ++ "\"],\"name\":\"" ++ name ++ "\"\x7d") }] := by
  have h := CreateProjectAccessToken_sends_post r env scopes projectID name
    (by rw [hhost]; exact createURL_accepted projectID)
  rw [hhost] at h
  exact h

/-- A run of plain characters followed by a quote is read as that string. -/
theorem scanString_plain (s : List Char) (hs : ∀ c ∈ s, PlainChar c) (acc rest : List Char) :
    scanString .plain acc (s ++ '"' :: rest) = some (String.mk (acc ++ s), rest) := by
  induction s generalizing acc with
  | nil => simp [scanString]
  | cons c tail ih =>
    have hc := hs c (List.mem_cons_self c tail)
    have ht : ∀ x ∈ tail, PlainChar x := fun x hx => hs x (List.mem_cons_of_mem c hx)
    simp only [List.cons_append, scanString, hc.1, hc.2.1, hc.2.2, if_false]
    have h := ih ht (acc ++ [c])
    simp only [List.append_assoc, List.singleton_append] at h
    exact h

/-- Where the wire contract holds: when the scope and the token name consist of
plain characters, the body built by `CreateProjectAccessToken` is a JSON
document whose `status` is `enabled`, whose `scopes` array has the single
element scope and whose `name` is the token name. -/
theorem CreateProjectAccessToken_body_of_plain (scopes name : String)
    (hs : ∀ c ∈ scopes.data, PlainChar c) (hn : ∀ c ∈ name.data, PlainChar c) :
    IsJSONDocument
      ("\x7b\"status\":\"enabled\",\"scopes\":[\"" ++ scopes ++ "\"],\"name\":\"" ++ name
        ++ "\"\x7d")
      (createTokenDocument scopes name) := by
  refine ⟨6, [], ?_, rfl⟩
  have hdata :
      ("\x7b\"status\":\"enabled\",\"scopes\":[\"" ++ scopes ++ "\"],\"name\":\"" ++ name
        ++ "\"\x7d").data
        = "\x7b\"status\":\"enabled\",\"scopes\":[\"".data
            ++ (scopes.data
              ++ '"' :: ("],\"name\":\"".data ++ (name.data ++ '"' :: ['\x7d']))) := by
    simp [String.data_append]
  rw [hdata]
  simp [readValue, readMembers, readElems, skipWs, scanString]
  rw [scanString_plain _ hs]
  simp [skipWs, scanString]
  rw [scanString_plain _ hn]
  simp [skipWs, createTokenDocument]

/-- The scope `read` and the token name `r1-u1` consist of plain characters, so
the body built for them is the JSON document of the wire contract. -/
theorem CreateProjectAccessToken_body_of_plain_sample :
    IsJSONDocument
      ("\x7b\"status\":\"enabled\",\"scopes\":[\"" ++ "read" ++ "\"],\"name\":\"" ++ "r1-u1"
        ++ "\"\x7d")
      (createTokenDocument "read" "r1-u1") :=
  CreateProjectAccessToken_body_of_plain "read" "r1-u1"
    (by simp [PlainChar]) (by simp [PlainChar])

/-- The body built for the scope `a"b` is read as a value with no amount of
fuel: after the string `a` the array wants `,` or `]` and finds `b`. -/
theorem quoteScopeBody_never_read (fuel : Nat) : readValue fuel quoteScopeBody.data = none :=
  match fuel with
  | 0 => rfl
  | 1 => rfl
  | 2 => rfl
  | 3 => rfl
  | 4 => rfl
  | 5 => rfl
  | _ + 6 => rfl

/-- The body built for the scope `read","write` is read, when the fuel
suffices, as an object whose `scopes` array has two elements. -/
theorem twoScopeBody_read (fuel : Nat) :
    readValue fuel twoScopeBody.data = none
      ∨ readValue fuel twoScopeBody.data
          = some (.obj [("status", .str "enabled"),
                        ("scopes", .arr [.str "read", .str "write"]),
                        ("name", .str "r1-u1")], []) :=
  match fuel with
  | 0 => Or.inl rfl
  | 1 => Or.inl rfl
  | 2 => Or.inl rfl
  | 3 => Or.inl rfl
  | 4 => Or.inl rfl
  | 5 => Or.inl rfl
  | 6 => Or.inl rfl
  | _ + 7 => Or.inr rfl

/-- C12 (what the code does instead). For the scope `a"b` (project 42, token
name `r1-u1`) the one request sent is the POST to
`/project/42/access_tokens` with the scope copied into the body unescaped, and
that body is not a JSON document at all. For the scope `read","write` the body
is a JSON document, but its `scopes` array has the two elements `read` and
`write`, not the single element scope. -/
theorem CreateProjectAccessToken_body_not_escaped :
    (sampleClient.CreateProjectAccessToken sampleEnv "a\"b" 42 "r1-u1").2
        = [{ method := "POST",
             url := "https://api.rollbar.com/api/1/project/42/access_tokens",
             header := [("accept", "application/json"), ("content-type", "application/json"),
                        ("X-Rollbar-Access-Token", "tok")],
             body := some quoteScopeBody }]
      ∧ (∀ v, ¬ IsJSONDocument quoteScopeBody v)
      ∧ parseJSON quoteScopeBody = none
      ∧ (sampleClient.CreateProjectAccessToken sampleEnv "read\",\"write" 42 "r1-u1").2
        = [{ method := "POST",
             url := "https://api.rollbar.com/api/1/project/42/access_tokens",
             header := [("accept", "application/json"), ("content-type", "application/json"),
                        ("X-Rollbar-Access-Token", "tok")],
             body := some twoScopeBody }]
      ∧ IsJSONDocument twoScopeBody
          (.obj [("status", .str "enabled"), ("scopes", .arr [.str "read", .str "write"]),
                 ("name", .str "r1-u1")])
      ∧ ¬ IsJSONDocument twoScopeBody (createTokenDocument "read\",\"write" "r1-u1") := by
  refine ⟨rfl, ?_, rfl, rfl, ⟨7, [], rfl, rfl⟩, ?_⟩
  · rintro v ⟨fuel, rest, h, _⟩
    rw [quoteScopeBody_never_read] at h
    cases h
  · rintro ⟨fuel, rest, h, _⟩
    rcases twoScopeBody_read fuel with h0 | h1
    · rw [h0] at h
      cases h
    · rw [h1] at h
      simp [createTokenDocument] at h

end Rollbar
